import Mathlib

/-!
A verification development for the query/mutation translator of a
PostgreSQL NDC connector.  The Rust sources are embedded shallowly:
pure functions become Lean functions, the mutable `State` is threaded
explicitly, fallible code returns `Except`, and code paths that panic in
Rust (`todo!()`, `.unwrap()`) are represented by an explicit `panic`
outcome constructor.
-/

namespace NdcPostgres

/-! ## JSON values (serde_json)

`serde_json::Value`.  The only observation the translator performs on a
JSON number is `n.as_f64()`, which may fail (arbitrary-precision
numbers); we therefore carry a number as that observation: `none` when
`as_f64` fails, `some bits` otherwise, with the 64-bit float represented
opaquely by an integer surrogate (the translator never computes with it,
it only stores it in a literal). -/
inductive Json where
  | null : Json
  | bool (b : Bool) : Json
  | num (asF64 : Option Int) : Json
  | str (s : String) : Json
  | arr (elements : List Json) : Json
  | obj (fields : List (String × Json)) : Json

/-! ## SQL AST: names and aliases (`sql::ast`) -/

/-- `sql::ast::ScalarTypeName` as constructed by `new_unqualified`,
together with its `is_array` flag. -/
structure ScalarTypeName where
  name : String
  isArray : Bool
deriving DecidableEq, Repr

/-- `ScalarTypeName::new_unqualified`. -/
def ScalarTypeName.newUnqualified (name : String) : ScalarTypeName :=
  { name := name, isArray := false }

/-- `sql::ast::TableAlias`: a disambiguating unique index plus a
human-readable name hint; rendered as `"%<index>_<name>"`. -/
structure TableAlias where
  uniqueIndex : Nat
  name : String
deriving DecidableEq, Repr

/-- `sql::ast::SchemaName`. -/
structure SchemaName where
  name : String
deriving DecidableEq, Repr

/-- `sql::ast::TableName`. -/
structure TableName where
  name : String
deriving DecidableEq, Repr

/-- `sql::ast::ColumnName`. -/
structure ColumnName where
  name : String
deriving DecidableEq, Repr

/-- `sql::ast::ColumnAlias`. -/
structure ColumnAlias where
  name : String
deriving DecidableEq, Repr

/-- `sql::ast::TableReference`. -/
inductive TableReference where
  | DBTable (schema : SchemaName) (table : TableName) : TableReference
  | AliasedTable (als : TableAlias) : TableReference
deriving DecidableEq, Repr

/-- `sql::ast::ColumnReference`. -/
inductive ColumnReference where
  | TableColumn (table : TableReference) (name : ColumnName) : ColumnReference
  | AliasedColumn (table : TableReference) (column : ColumnAlias) : ColumnReference
deriving DecidableEq, Repr

/-- `sql::ast::BinaryOperator`. -/
structure BinaryOperator where
  op : String
deriving DecidableEq, Repr

/-- `sql::ast::Function`. -/
inductive SqlFunction where
  | JsonbPopulateRecord : SqlFunction
  | JsonAgg : SqlFunction
  | Unnest : SqlFunction
  | Coalesce : SqlFunction
  | Unknown (name : String) : SqlFunction
deriving DecidableEq, Repr

/-- `sql::ast::Value`: SQL literal values.  `Float8` carries the integer
surrogate for the `f64` produced by `serde_json`'s `as_f64`. -/
inductive Value where
  | Null : Value
  | Bool (b : Bool) : Value
  | Float8 (bits : Int) : Value
  | Str (s : String) : Value
  | JsonValue (j : Json) : Value
  | Array (elements : List Value) : Value

/-- Sort direction of an `ORDER BY` element. -/
inductive OrderByDirection where
  | Asc : OrderByDirection
  | Desc : OrderByDirection
deriving DecidableEq, Repr

/-- `NULLS FIRST` / `NULLS LAST` of an `ORDER BY` element. -/
inductive NullsOrder where
  | NullsFirst : NullsOrder
  | NullsLast : NullsOrder
deriving DecidableEq, Repr

/-- `sql::ast::Limit`: the `LIMIT`/`OFFSET` pair of a select. -/
structure Limit where
  limit : Option Nat
  offset : Option Nat
deriving DecidableEq, Repr

mutual

/-- `sql::ast::SelectList`.  `SelectStarComposite` is the shape used to
render `SELECT (<expr>).*` for unpacking composite values. -/
inductive SelectList where
  | SelectStar : SelectList
  | SelectStarComposite (expr : Expression) : SelectList
  | SelectListValues (columns : List (ColumnAlias × Expression)) : SelectList
  | SelectListComposite (left : SelectList) (right : SelectList) : SelectList

/-- `sql::ast::Expression`. -/
inductive Expression where
  | ColumnReference (c : ColumnReference) : Expression
  | Value (v : Value) : Expression
  | And (left : Expression) (right : Expression) : Expression
  | Or (left : Expression) (right : Expression) : Expression
  | Not (e : Expression) : Expression
  | BinaryOperation (left : Expression) (operator : BinaryOperator) (right : Expression) : Expression
  | FunctionCall (function : SqlFunction) (args : List Expression) : Expression
  | Cast (expression : Expression) (type : ScalarTypeName) : Expression
  | RowToJson (table : TableReference) : Expression
  | CorrelatedSubSelect (select : Select) : Expression

/-- `sql::ast::From`. -/
inductive From where
  | Table (reference : TableReference) (als : TableAlias) : From
  | SelectFrom (select : Select) (als : TableAlias) : From
  | JsonbArrayElements (expression : Expression) (als : TableAlias) (column : ColumnAlias) : From
  | Variables (als : TableAlias) : From

/-- `sql::ast::Join`. -/
inductive Join where
  | InnerJoin (select : Select) (als : TableAlias) (onExpr : Expression) : Join
  | LeftOuterJoinLateral (select : Select) (als : TableAlias) : Join
  | CrossJoinLateral (select : Select) (als : TableAlias) : Join

/-- One element of an `ORDER BY` clause. -/
inductive OrderByElement where
  | mk (target : Expression) (direction : OrderByDirection) (nulls : NullsOrder) : OrderByElement

/-- A `WITH <alias> AS (<select>)` common table expression. -/
inductive CommonTableExpression where
  | mk (als : TableAlias) (select : Select) : CommonTableExpression

/-- `sql::ast::Select`, with the fields listed by the spec: CTEs, select
list, from, joins, where, group by, order by, limit/offset, for update. -/
inductive Select where
  | mk (withCtes : List CommonTableExpression) (selectList : SelectList)
       (fromClause : Option From) (joins : List Join) (whereClause : Expression)
       (groupBy : List Expression) (orderBy : List OrderByElement)
       (limit : Limit) (forUpdate : Bool) : Select

end

namespace Select

def withCtes : Select → List CommonTableExpression
  | .mk w _ _ _ _ _ _ _ _ => w

def selectList : Select → SelectList
  | .mk _ sl _ _ _ _ _ _ _ => sl

def fromClause : Select → Option From
  | .mk _ _ f _ _ _ _ _ _ => f

def joins : Select → List Join
  | .mk _ _ _ j _ _ _ _ _ => j

def whereClause : Select → Expression
  | .mk _ _ _ _ w _ _ _ _ => w

def groupBy : Select → List Expression
  | .mk _ _ _ _ _ g _ _ _ => g

def orderBy : Select → List OrderByElement
  | .mk _ _ _ _ _ _ o _ _ => o

def limit : Select → Limit
  | .mk _ _ _ _ _ _ _ l _ => l

def forUpdate : Select → Bool
  | .mk _ _ _ _ _ _ _ _ u => u

/-- Overwrite the select list. -/
def setSelectList (s : Select) (sl : SelectList) : Select :=
  match s with
  | .mk w _ f j wh g o l u => .mk w sl f j wh g o l u

/-- Overwrite the FROM clause (`select.from = Some ...`). -/
def setFrom (s : Select) (f : Option From) : Select :=
  match s with
  | .mk w sl _ j wh g o l u => .mk w sl f j wh g o l u

/-- Extend the joins (`select.joins.extend(...)`). -/
def extendJoins (s : Select) (js : List Join) : Select :=
  match s with
  | .mk w sl f j wh g o l u => .mk w sl f (j ++ js) wh g o l u

/-- Overwrite the WHERE clause (`select.where_ = ...`). -/
def setWhere (s : Select) (wh : Expression) : Select :=
  match s with
  | .mk w sl f j _ g o l u => .mk w sl f j wh g o l u

/-- Overwrite the ORDER BY clause (`select.order_by = ...`). -/
def setOrderBy (s : Select) (o : List OrderByElement) : Select :=
  match s with
  | .mk w sl f j wh g _ l u => .mk w sl f j wh g o l u

/-- Overwrite the LIMIT/OFFSET pair (`select.limit = ...`). -/
def setLimit (s : Select) (l : Limit) : Select :=
  match s with
  | .mk w sl f j wh g o _ u => .mk w sl f j wh g o l u

end Select

/-! ## SQL helpers (`sql::helpers`)

The `sql` crate itself is not part of the translator subtree; these
helpers are the small constructors its callers use. -/

/-- Modelled from the spec: `sql::helpers::true_expr()`, the trivially
true boolean expression used for empty WHERE clauses. -/
def trueExpr : Expression := .Value (.Bool true)

/-- Modelled from the spec: `sql::helpers::empty_order_by()`, an ORDER BY
clause with no elements. -/
def emptyOrderBy : List OrderByElement := []

/-- Modelled from the spec: `sql::helpers::empty_limit()`, no LIMIT and
no OFFSET. -/
def emptyLimit : Limit := { limit := none, offset := none }

/-- Modelled from the spec: `sql::helpers::simple_select(columns)`
constructs a `SELECT <columns>` with no CTEs, no FROM, no joins, a true
WHERE, no GROUP BY, an empty ORDER BY, no LIMIT/OFFSET, no FOR UPDATE. -/
def simpleSelect (columns : List (ColumnAlias × Expression)) : Select :=
  .mk [] (.SelectListValues columns) none [] trueExpr [] emptyOrderBy emptyLimit false

/-- Modelled from the spec: `sql::helpers::select_composite(expr)`
constructs the `SELECT (<expr>).*` used to unpack a composite value. -/
def selectComposite (expr : Expression) : Select :=
  .mk [] (.SelectStarComposite expr) none [] trueExpr [] emptyOrderBy emptyLimit false

/-- Modelled from the spec: `sql::helpers::make_column_alias`. -/
def makeColumnAlias (name : String) : ColumnAlias := { name := name }

/-- Modelled from the spec: `sql::helpers::CHECK_CONSTRAINT_FIELD`. -/
def checkConstraintField : String := "check_constraint"

/-- Modelled from the spec: `sql::helpers::make_column(table, name,
alias)` projects a column of a table under an alias. -/
def makeColumn (table : TableReference) (name : ColumnName) (als : ColumnAlias) :
    ColumnAlias × Expression :=
  (als, .ColumnReference (.TableColumn table name))

/-- Modelled from the spec: `sql::helpers::from_variables`, the synthetic
variables table FROM clause. -/
def fromVariables (als : TableAlias) : From := .Variables als

end NdcPostgres

namespace NdcPostgres

/-! ## Metadata catalog (`query_engine_metadata::metadata::database`) -/

/-- `metadata::Type`: scalar, composite, or array type of a column. -/
inductive DbType where
  | ScalarType (name : String) : DbType
  | CompositeType (name : String) : DbType
  | ArrayType (element : DbType) : DbType
deriving DecidableEq, Repr

/-- `metadata::database::Nullable`. -/
inductive Nullable where
  | Nullable : Nullable
  | NonNullable : Nullable
deriving DecidableEq, Repr

/-- `metadata::database::HasDefault`. -/
inductive HasDefault where
  | NoDefault : HasDefault
  | HasDefault : HasDefault
deriving DecidableEq, Repr

/-- `metadata::database::IsIdentity`. -/
inductive IsIdentity where
  | NotIdentity : IsIdentity
  | IdentityByDefault : IsIdentity
  | IdentityAlways : IsIdentity
deriving DecidableEq, Repr

/-- `metadata::database::IsGenerated`. -/
inductive IsGenerated where
  | NotGenerated : IsGenerated
  | Stored : IsGenerated
deriving DecidableEq, Repr

/-- `metadata::database::ColumnInfo`: the mutation rules are a function
of the four flags. -/
structure ColumnInfo where
  name : String
  type : DbType
  nullable : Nullable
  hasDefault : HasDefault
  isIdentity : IsIdentity
  isGenerated : IsGenerated
deriving DecidableEq, Repr

/-- `metadata::TypeRepresentation`, with the variants matched exhaustively
by the field translator's `get_type_representation_cast_type`. -/
inductive TypeRepresentation where
  | Boolean : TypeRepresentation
  | String : TypeRepresentation
  | Float32 : TypeRepresentation
  | Float64 : TypeRepresentation
  | Int16 : TypeRepresentation
  | Int32 : TypeRepresentation
  | Int64 : TypeRepresentation
  | Int64AsString : TypeRepresentation
  | BigDecimal : TypeRepresentation
  | BigDecimalAsString : TypeRepresentation
  | Timestamp : TypeRepresentation
  | Timestamptz : TypeRepresentation
  | Time : TypeRepresentation
  | Timetz : TypeRepresentation
  | Date : TypeRepresentation
  | UUID : TypeRepresentation
  | Geography : TypeRepresentation
  | Geometry : TypeRepresentation
  | Json : TypeRepresentation
  | Enum (values : List String) : TypeRepresentation
deriving DecidableEq, Repr

/-- `metadata::database::TableInfo`; uniqueness constraints and foreign
relations are elided here because no settled claim concerns them. -/
structure TableInfo where
  schemaName : String
  tableName : String
  columns : List (String × ColumnInfo)
deriving DecidableEq, Repr

/-- A field of a composite type (`metadata::FieldInfo`). -/
structure FieldInfo where
  name : String
  type : DbType
deriving DecidableEq, Repr

/-- `metadata::CompositeType`. -/
structure CompositeTypeDef where
  name : String
  fields : List (String × FieldInfo)
deriving DecidableEq, Repr

/-! ## Translation errors (`translation::error::Error`) -/

/-- `translation::error::Error`: the translator's error taxonomy. -/
inductive Error where
  | CollectionNotFound (collection : String) : Error
  | ColumnNotFoundInCollection (column : String) (collection : String) : Error
  | RelationshipNotFound (name : String) : Error
  | ArgumentNotFound (name : String) : Error
  | OperatorNotFound (operatorName : String) (typeName : String) : Error
  | ProcedureNotFound (name : String) : Error
  | UnexpectedVariable : Error
  | CapabilityNotSupported (name : String) : Error
  | UnexpectedStructure (msg : String) : Error
  | NestedFieldNotOfCompositeType (fieldName : String) (actualType : DbType) : Error
  | NestedFieldNotOfArrayType (fieldName : String) (actualType : DbType) : Error
  | NestedArraysNotSupported (fieldName : String) : Error
  | ColumnIsGenerated (column : String) : Error
  | ColumnIsIdentityAlways (column : String) : Error
  | MissingColumnInInsert (column : String) (collection : String) : Error
  | UnableToDeserializeNumberAsF64 : Error
deriving DecidableEq, Repr

/-! ## Translation state (`translation::helpers::State`) -/

/-- An entry of `helpers::NativeQueries` (`helpers::NativeQueryInfo`);
the native-query declaration and argument payloads are elided because no
settled claim concerns them, only the appended alias matters here. -/
structure NativeQueryCall where
  name : String
  als : TableAlias
deriving DecidableEq, Repr

/-- `helpers::State`: the native-query accumulator and the monotonically
increasing alias counter (`TableAliasIndex`). -/
structure State where
  nativeQueries : List NativeQueryCall
  globalTableIndex : Nat
deriving DecidableEq, Repr

namespace State

/-- `State::new` / `State::default`. -/
def new : State := { nativeQueries := [], globalTableIndex := 0 }

/-- `State::next_global_table_index`: increment the table index and
return the current one. -/
def nextGlobalTableIndex (s : State) : Nat × State :=
  (s.globalTableIndex, { s with globalTableIndex := s.globalTableIndex + 1 })

/-- `State::make_table_alias`: create table aliases using this function
so they get a unique index. -/
def makeTableAlias (s : State) (name : String) : TableAlias × State :=
  let (index, s1) := s.nextGlobalTableIndex
  ({ uniqueIndex := index, name := name }, s1)

/-- `State::make_relationship_table_alias`. -/
def makeRelationshipTableAlias (s : State) (name : String) : TableAlias × State :=
  s.makeTableAlias ("RELATIONSHIP_" ++ name)

/-- `State::make_order_path_part_table_alias`. -/
def makeOrderPathPartTableAlias (s : State) (tableName : String) : TableAlias × State :=
  s.makeTableAlias ("ORDER_PART_" ++ tableName)

/-- `State::make_order_by_table_alias`. -/
def makeOrderByTableAlias (s : State) (sourceTableName : String) : TableAlias × State :=
  s.makeTableAlias ("ORDER_FOR_" ++ sourceTableName)

/-- `State::make_native_query_table_alias`. -/
def makeNativeQueryTableAlias (s : State) (name : String) : TableAlias × State :=
  s.makeTableAlias ("NATIVE_QUERY_" ++ name)

/-- `State::make_boolean_expression_table_alias`. -/
def makeBooleanExpressionTableAlias (s : State) (sourceTableName : String) : TableAlias × State :=
  s.makeTableAlias ("BOOLEXP_" ++ sourceTableName)

/-- `State::insert_native_query`: allocate a CTE alias for a native query
invocation and append it to the accumulator. -/
def insertNativeQuery (s : State) (name : String) : TableReference × State :=
  let (als, s1) := s.makeNativeQueryTableAlias name
  (.AliasedTable als,
   { s1 with nativeQueries := s1.nativeQueries ++ [{ name := name, als := als }] })

end State

/-- The kinds of alias-creating calls a translation may perform on the
`State` (the `make_table_alias` hint-prefixed variants, the variables
table, and native-query insertion, each of which allocates exactly one
alias through `make_table_alias`). -/
inductive AliasRequest where
  | plain (name : String) : AliasRequest
  | relationship (name : String) : AliasRequest
  | orderPathPart (tableName : String) : AliasRequest
  | orderByTarget (sourceTableName : String) : AliasRequest
  | nativeQuery (name : String) : AliasRequest
  | booleanExpression (sourceTableName : String) : AliasRequest
  | variablesTable : AliasRequest
deriving DecidableEq, Repr

/-- Perform one alias-creating call on the state and return the alias it
issued. -/
def runAliasRequest (s : State) : AliasRequest → TableAlias × State
  | .plain name => s.makeTableAlias name
  | .relationship name => s.makeRelationshipTableAlias name
  | .orderPathPart t => s.makeOrderPathPartTableAlias t
  | .orderByTarget t => s.makeOrderByTableAlias t
  | .nativeQuery n => s.makeNativeQueryTableAlias n
  | .booleanExpression t => s.makeBooleanExpressionTableAlias t
  | .variablesTable => s.makeTableAlias "%variables_table"

/-- Perform a sequence of alias-creating calls, returning every alias
issued, in order. -/
def runAliasRequests (s : State) : List AliasRequest → List TableAlias × State
  | [] => ([], s)
  | r :: rs =>
      let (a, s1) := runAliasRequest s r
      let (as1, s2) := runAliasRequests s1 rs
      (a :: as1, s2)

/-! ## Scope-tracking helpers (`translation::helpers`) -/

/-- `helpers::TableNameAndReference`. -/
structure TableNameAndReference where
  name : String
  reference : TableReference
deriving DecidableEq, Repr

/-- `helpers::RootAndCurrentTables`. -/
structure RootAndCurrentTables where
  rootTable : TableNameAndReference
  currentTable : TableNameAndReference
deriving DecidableEq, Repr

/-- `helpers::ColumnInfo` (the translation-time view of a column: its
physical name and its type). -/
structure TransColumnInfo where
  name : ColumnName
  type : DbType
deriving DecidableEq, Repr

/-- Modelled from the spec: `helpers::FieldsInfo`, the piece of catalog
(table, native query or composite type) against which field selections
are resolved; its `lookup_column` resolves a field name to the physical
column name and type, or `ColumnNotFoundInCollection`.  The source file
of this commit predates the `FieldsInfo` refactor, so only the lookup
surface the field translator uses is modelled. -/
structure FieldsInfo where
  sourceName : String
  columns : List (String × TransColumnInfo)
deriving DecidableEq, Repr

/-- Look up a key in an association list. -/
def assocLookup {α : Type} (key : String) : List (String × α) → Option α
  | [] => none
  | (k, v) :: rest => if k = key then some v else assocLookup key rest

/-- `FieldsInfo::lookup_column`. -/
def FieldsInfo.lookupColumn (fi : FieldsInfo) (column : String) : Except Error TransColumnInfo :=
  match assocLookup column fi.columns with
  | some info => .ok info
  | none => .error (.ColumnNotFoundInCollection column fi.sourceName)

/-- `helpers::Env`, restricted to the lookups the settled claims
exercise: tables, composite types and per-scalar-type representations.
Relationships, comparison operators and the variables table are elided
because no settled claim concerns them. -/
structure Env where
  tables : List (String × TableInfo)
  compositeTypes : List (String × CompositeTypeDef)
  typeRepresentations : List (String × TypeRepresentation)
deriving DecidableEq, Repr

/-- The `FieldsInfo` view of a table. -/
def TableInfo.fieldsInfo (name : String) (t : TableInfo) : FieldsInfo :=
  { sourceName := name,
    columns := t.columns.map (fun p =>
      (p.1, { name := { name := p.2.name }, type := p.2.type })) }

/-- The `FieldsInfo` view of a composite type. -/
def CompositeTypeDef.fieldsInfo (name : String) (ct : CompositeTypeDef) : FieldsInfo :=
  { sourceName := name,
    columns := ct.fields.map (fun p =>
      (p.1, { name := { name := p.2.name }, type := p.2.type })) }

/-- Modelled from the spec: `Env::lookup_fields_info` resolves a
collection name against tables first, then composite types, and fails
with `CollectionNotFound`. -/
def Env.lookupFieldsInfo (env : Env) (name : String) : Except Error FieldsInfo :=
  match assocLookup name env.tables with
  | some t => .ok (t.fieldsInfo name)
  | none =>
      match assocLookup name env.compositeTypes with
      | some ct => .ok (ct.fieldsInfo name)
      | none => .error (.CollectionNotFound name)

/-- `Env::lookup_composite_type`, restricted to the composite-type leg
(`CompositeTypeInfo::CompositeTypeInfo`). -/
def Env.lookupCompositeType (env : Env) (name : String) : Except Error CompositeTypeDef :=
  match assocLookup name env.compositeTypes with
  | some ct => .ok ct
  | none => .error (.CollectionNotFound name)

/-- `Env::lookup_type_representation`: `None` when the catalog declares
no representation for the scalar type. -/
def Env.lookupTypeRepresentation (env : Env) (scalarType : String) : Option TypeRepresentation :=
  assocLookup scalarType env.typeRepresentations

end NdcPostgres

namespace NdcPostgres

/-! ## Value translation (`translation::query::values`) -/

/-- `values::type_to_ast_scalar_type`: translate a metadata `Type` to an
SQL type name; nested arrays collapse onto a single `is_array` flag. -/
def typeToAstScalarType : DbType → ScalarTypeName
  | .ArrayType t =>
      let scalarType := typeToAstScalarType t
      { scalarType with isArray := true }
  | .ScalarType t => ScalarTypeName.newUnqualified t
  | .CompositeType t => ScalarTypeName.newUnqualified t

/-- `values::translate_projected_variable`: produce a SQL expression that
translates an expression of Postgres type `jsonb` into a given type. -/
def translateProjectedVariable (state : State) (ty : DbType) (exp : Expression) :
    Expression × State :=
  match ty with
  | .CompositeType _ =>
      (.FunctionCall .JsonbPopulateRecord
        [.Cast (.Value .Null) (typeToAstScalarType ty), exp], state)
  | .ArrayType elementType =>
      let (arrayTable, state1) := state.makeTableAlias "array"
      let elementColumn : ColumnAlias := { name := "element" }
      let fromArr := From.JsonbArrayElements exp arrayTable elementColumn
      let elementExpression : Expression :=
        .ColumnReference (.AliasedColumn (.AliasedTable arrayTable) elementColumn)
      let (convertedElementExp, state2) :=
        translateProjectedVariable state1 elementType elementExpression
      let resultSelect :=
        (simpleSelect
          [(elementColumn, .FunctionCall (.Unknown "array_agg") [convertedElementExp])]).setFrom
          (some fromArr)
      (.CorrelatedSubSelect resultSelect, state2)
  | .ScalarType _ =>
      (.Cast
        (.BinaryOperation exp { op := "#>>" }
          (.Cast (.Value (.Array [])) { name := "text", isArray := true }))
        (typeToAstScalarType ty), state)

/-- `values::translate_json_value`: convert a JSON value into a SQL value
of the expected type. -/
def translateJsonValue (state : State) (value : Json) (ty : DbType) :
    Except Error (Expression × State) :=
  match value, ty with
  | .null, t => .ok (.Cast (.Value .Null) (typeToAstScalarType t), state)
  | .bool b, _ => .ok (.Value (.Bool b), state)
  | .num n, _ =>
      match n with
      | none => .error .UnableToDeserializeNumberAsF64
      | some lit => .ok (.Value (.Float8 lit), state)
  | .str s, t => .ok (.Cast (.Value (.Str s)) (typeToAstScalarType t), state)
  | .arr _, .ArrayType _ =>
      let valueExpression := Expression.Value (.JsonValue value)
      .ok (translateProjectedVariable state ty valueExpression)
  | .obj _, .CompositeType _ =>
      let valueExpression := Expression.Value (.JsonValue value)
      .ok (translateProjectedVariable state ty valueExpression)
  | _, _ =>
      .ok (.Cast
        (.Cast (.Value (.JsonValue value)) (ScalarTypeName.newUnqualified "jsonb"))
        (typeToAstScalarType ty), state)

/-- Whether a metadata type is an array type. -/
def DbType.isArrayType : DbType → Bool
  | .ArrayType _ => true
  | _ => false

/-- Whether a metadata type is a composite type. -/
def DbType.isCompositeType : DbType → Bool
  | .CompositeType _ => true
  | _ => false

end NdcPostgres

namespace NdcPostgres

/-! ## Sorted association maps (`BTreeMap` / `BTreeSet` over column names)

The Rust code stores translated objects in `BTreeMap<ColumnName, _>` and
column unions in `BTreeSet<ColumnName>`; both iterate in ascending key
order.  They are modelled as sorted, duplicate-free association lists. -/

/-- `BTreeMap::insert`: sorted insertion, replacing an existing binding. -/
def mapInsert {α : Type} (key : ColumnName) (value : α) :
    List (ColumnName × α) → List (ColumnName × α)
  | [] => [(key, value)]
  | (k, v) :: rest =>
      if key.name < k.name then (key, value) :: (k, v) :: rest
      else if key.name = k.name then (key, value) :: rest
      else (k, v) :: mapInsert key value rest

/-- `BTreeMap::get`. -/
def mapLookup {α : Type} (key : ColumnName) : List (ColumnName × α) → Option α
  | [] => none
  | (k, v) :: rest => if k = key then some v else mapLookup key rest

/-- `BTreeMap::contains_key`. -/
def mapContainsKey {α : Type} (key : ColumnName) (m : List (ColumnName × α)) : Bool :=
  (mapLookup key m).isSome

/-- `BTreeMap::keys` (in ascending order). -/
def mapKeys {α : Type} (m : List (ColumnName × α)) : List ColumnName :=
  m.map Prod.fst

/-- `BTreeMap::into_values` (in ascending key order). -/
def mapValues {α : Type} (m : List (ColumnName × α)) : List α :=
  m.map Prod.snd

/-- `BTreeSet::insert`: sorted duplicate-free insertion. -/
def setInsert (key : ColumnName) : List ColumnName → List ColumnName
  | [] => [key]
  | k :: rest =>
      if key.name < k.name then key :: k :: rest
      else if key.name = k.name then k :: rest
      else k :: setInsert key rest

/-- `BTreeSet::union`: fold the right set into the left one. -/
def setUnion (left : List ColumnName) (right : List ColumnName) : List ColumnName :=
  right.foldl (fun acc k => setInsert k acc) left

/-! ## Auto-generated insert mutations, experimental version
(`translation::mutation::experimental::insert`) -/

/-- `sql::ast::InsertExpression`: a concrete value or `DEFAULT`. -/
inductive InsertExpression where
  | Expression (e : Expression) : InsertExpression
  | Default : InsertExpression

/-- `sql::ast::Returning`. -/
inductive Returning where
  | Returning (selectList : SelectList) : Returning

/-- `sql::ast::Insert`: `INSERT INTO <table>(<columns>) VALUES (<values>)
RETURNING ...`. -/
structure Insert where
  schema : SchemaName
  table : TableName
  columns : List ColumnName
  values : List (List InsertExpression)
  returning : Returning

/-- `experimental::insert::Constraint`: name and description of the
constraint input argument. -/
structure Constraint where
  argumentName : String
  description : String
deriving DecidableEq, Repr

/-- `experimental::insert::InsertMutation`: a representation of an
auto-generated insert mutation. -/
structure InsertMutation where
  collectionName : String
  description : String
  schemaName : SchemaName
  tableName : TableName
  columns : List (String × ColumnInfo)
  constraint : Constraint
deriving DecidableEq, Repr

/-- `experimental::insert::generate`: generate an insert mutation for a
table. -/
def generateInsert (collectionName : String) (tableInfo : TableInfo) :
    String × InsertMutation :=
  ("experimental_insert_" ++ collectionName,
   { collectionName := collectionName,
     description := "Insert into the " ++ collectionName ++ " table",
     schemaName := { name := tableInfo.schemaName },
     tableName := { name := tableInfo.tableName },
     columns := tableInfo.columns,
     constraint :=
      { argumentName := "constraint",
        description := "Insert permission predicate over the '" ++ collectionName
          ++ "' collection" } })

/-- The field loop of `translate_object_into_columns_and_values`: look
each object key up in the table, translate its JSON value at the column's
type, and record it in the map under the physical column name. -/
def translateObjectFields (mutation : InsertMutation) (state : State)
    (acc : List (ColumnName × InsertExpression)) :
    List (String × Json) → Except Error (List (ColumnName × InsertExpression) × State)
  | [] => .ok (acc, state)
  | (name, value) :: rest =>
      match assocLookup name mutation.columns with
      | none => .error (.ColumnNotFoundInCollection name mutation.collectionName)
      | some columnInfo =>
          match translateJsonValue state value columnInfo.type with
          | .error e => .error e
          | .ok (expr, state1) =>
              translateObjectFields mutation state1
                (mapInsert { name := columnInfo.name } (.Expression expr) acc) rest

/-- `experimental::insert::translate_object_into_columns_and_values`:
translate a single insert object into a mapping from column names to
values. -/
def translateObjectIntoColumnsAndValues (env : Env) (state : State)
    (mutation : InsertMutation) (object : Json) :
    Except Error (List (ColumnName × InsertExpression) × State) :=
  match object with
  | .obj fields => translateObjectFields mutation state [] fields
  | .arr _ => .error (.UnexpectedStructure
      "array of arrays structure in insert _objects argument. Expecting an array of objects.")
  | _ => .error (.UnexpectedStructure
      "array of values structure in insert _objects argument. Expecting an array of objects.")

/-- The object loop of `translate_objects_to_columns_and_values`:
translate every object of the `_objects` array. -/
def translateObjectsList (env : Env) (mutation : InsertMutation) (state : State) :
    List Json → Except Error (List (List (ColumnName × InsertExpression)) × State)
  | [] => .ok ([], state)
  | object :: rest =>
      match translateObjectIntoColumnsAndValues env state mutation object with
      | .error e => .error e
      | .ok (columnsAndValues, state1) =>
          match translateObjectsList env mutation state1 rest with
          | .error e => .error e
          | .ok (others, state2) => .ok (columnsAndValues :: others, state2)

/-- One iteration of the loop body of `check_columns` (experimental
version): the per-column generated/identity/nullable rules, with the
match arms in source order. -/
def checkColumn (insertName : String) (name : String) (column : ColumnInfo)
    (insertedColumns : List (ColumnName × InsertExpression)) : Except Error Unit :=
  if column.nullable = .Nullable ∨ column.hasDefault = .HasDefault
      ∨ column.isIdentity = .IdentityByDefault then
    .ok ()
  else if column.isGenerated = .Stored then
    match mapLookup { name := column.name } insertedColumns with
    | some (.Expression _) => .error (.ColumnIsGenerated name)
    | _ => .ok ()
  else if column.isIdentity = .IdentityAlways then
    match mapLookup { name := column.name } insertedColumns with
    | some (.Expression _) => .error (.ColumnIsIdentityAlways name)
    | _ => .ok ()
  else
    match mapLookup { name := column.name } insertedColumns with
    | some (.Expression _) => .ok ()
    | _ => .error (.MissingColumnInInsert name insertName)

/-- `experimental::insert::check_columns`: check that no columns are
missing, and that columns that cannot be inserted into are not inserted. -/
def checkColumns (columns : List (String × ColumnInfo))
    (insertedColumns : List (ColumnName × InsertExpression)) (insertName : String) :
    Except Error Unit :=
  match columns with
  | [] => .ok ()
  | (name, column) :: rest =>
      match checkColumn insertName name column insertedColumns with
      | .error e => .error e
      | .ok () => checkColumns rest insertedColumns insertName

/-- The DEFAULT-backfill loop of `translate_objects_to_columns_and_values`:
add every union column missing from the object with a `DEFAULT` value. -/
def backfillDefaults (unionOfColumns : List ColumnName)
    (columnsAndValues : List (ColumnName × InsertExpression)) :
    List (ColumnName × InsertExpression) :=
  unionOfColumns.foldl
    (fun acc columnName =>
      if mapContainsKey columnName acc then acc else mapInsert columnName .Default acc)
    columnsAndValues

/-- The backfill-then-check loop of
`translate_objects_to_columns_and_values`. -/
def backfillAndCheck (mutation : InsertMutation) (unionOfColumns : List ColumnName) :
    List (List (ColumnName × InsertExpression)) →
    Except Error (List (List (ColumnName × InsertExpression)))
  | [] => .ok []
  | columnsAndValues :: rest =>
      let filled := backfillDefaults unionOfColumns columnsAndValues
      match checkColumns mutation.columns filled mutation.collectionName with
      | .error e => .error e
      | .ok () =>
          match backfillAndCheck mutation unionOfColumns rest with
          | .error e => .error e
          | .ok others => .ok (filled :: others)

/-- `experimental::insert::translate_objects_to_columns_and_values`:
parse the objects the user sent and translate them to a list of columns
to insert and one vector of values per object. -/
def translateObjectsToColumnsAndValues (env : Env) (state : State)
    (mutation : InsertMutation) (value : Json) :
    Except Error ((List ColumnName × List (List InsertExpression)) × State) :=
  match value with
  | .arr array =>
      match translateObjectsList env mutation state array with
      | .error e => .error e
      | .ok (allColumnsAndValues, state1) =>
          let unionOfColumns :=
            allColumnsAndValues.foldl (fun acc m => setUnion acc (mapKeys m)) []
          match backfillAndCheck mutation unionOfColumns allColumnsAndValues with
          | .error e => .error e
          | .ok filled => .ok ((unionOfColumns, filled.map mapValues), state1)
  | .obj _ => .error (.UnexpectedStructure
      "object structure in insert _objects argument. Expecting an array of objects.")
  | _ => .error (.UnexpectedStructure
      "value structure in insert _objects argument. Expecting an array of objects.")

/-- An NDC boolean expression (`ndc_sdk::models::Expression`); carried
opaquely, its translation is delegated to an oracle parameter. -/
structure NdcExpression where
  raw : Json

/-- The collaborators of the insert/update translators that live outside
the mutation modules: deserializing an NDC predicate from JSON
(`serde_json::from_value`) and `filtering::translate_expression`. -/
structure PredicateOracles where
  parsePredicate : Json → Option NdcExpression
  translateExpression : State → RootAndCurrentTables → NdcExpression →
    Except Error (Expression × State)

/-- `experimental::insert::translate`: given the description of an
insert mutation and the arguments, output the SQL AST. -/
def insertTranslate (oracles : PredicateOracles) (env : Env) (state : State)
    (mutation : InsertMutation) (arguments : List (String × Json)) :
    Except Error (Insert × ColumnAlias × State) :=
  match assocLookup "_objects" arguments with
  | none => .error (.ArgumentNotFound "_objects")
  | some object =>
      match translateObjectsToColumnsAndValues env state mutation object with
      | .error e => .error e
      | .ok ((columns, values), state1) =>
          let tableNameAndReference : TableNameAndReference :=
            { name := mutation.collectionName,
              reference := .DBTable mutation.schemaName mutation.tableName }
          match assocLookup mutation.constraint.argumentName arguments with
          | none => .error (.ArgumentNotFound mutation.constraint.argumentName)
          | some predicateJson =>
              match oracles.parsePredicate predicateJson with
              | none => .error (.ArgumentNotFound mutation.constraint.argumentName)
              | some predicate =>
                  match oracles.translateExpression state1
                      { rootTable := tableNameAndReference,
                        currentTable := tableNameAndReference } predicate with
                  | .error e => .error e
                  | .ok (predicateExpression, state2) =>
                      let checkConstraintAlias := makeColumnAlias checkConstraintField
                      .ok ({ schema := mutation.schemaName,
                             table := mutation.tableName,
                             columns := columns,
                             values := values,
                             returning := .Returning (.SelectListComposite .SelectStar
                               (.SelectListValues
                                 [(checkConstraintAlias, predicateExpression)])) },
                           checkConstraintAlias, state2)

end NdcPostgres

namespace NdcPostgres

/-! ## The outcome of running Rust code that may panic

`Except` cannot represent `todo!()` or `.unwrap()`; translation entry
points that contain such code paths are embedded into `Outcome`, whose
`panic` constructor marks a program abort. -/

/-- Success, a returned error value, or a Rust panic. -/
inductive Outcome (α : Type) where
  | ok (a : α) : Outcome α
  | err (e : Error) : Outcome α
  | panic (msg : String) : Outcome α

/-- A returned `Result` propagates into `Outcome` without panicking. -/
def ofExcept {α : Type} : Except Error α → Outcome α
  | .ok a => .ok a
  | .error e => .err e

/-- Whether an outcome is a panic (a program abort). -/
def Outcome.isPanic {α : Type} : Outcome α → Bool
  | .panic _ => true
  | _ => false

/-! ## Auto-generated insert mutations, v1 version
(`translation::mutation::v1::insert`) -/

/-- `v1::insert::InsertMutation`. -/
structure V1InsertMutation where
  collectionName : String
  description : String
  schemaName : SchemaName
  tableName : TableName
  columns : List (String × ColumnInfo)
deriving DecidableEq, Repr

/-- `v1::insert::generate`. -/
def v1GenerateInsert (collectionName : String) (tableInfo : TableInfo) :
    String × V1InsertMutation :=
  ("v1_insert_" ++ collectionName,
   { collectionName := collectionName,
     description := "Insert into the " ++ collectionName ++ " table",
     schemaName := { name := tableInfo.schemaName },
     tableName := { name := tableInfo.tableName },
     columns := tableInfo.columns })

/-- The object-field loop of `v1::insert::translate`: push each column
name and translated value, in object order. -/
def v1TranslateObjectFields (mutation : V1InsertMutation) (state : State)
    (columns : List ColumnName) (values : List InsertExpression) :
    List (String × Json) →
    Except Error ((List ColumnName × List InsertExpression) × State)
  | [] => .ok ((columns, values), state)
  | (name, value) :: rest =>
      match assocLookup name mutation.columns with
      | none => .error (.ColumnNotFoundInCollection name mutation.collectionName)
      | some columnInfo =>
          match translateJsonValue state value columnInfo.type with
          | .error e => .error e
          | .ok (expr, state1) =>
              v1TranslateObjectFields mutation state1
                (columns ++ [{ name := columnInfo.name }])
                (values ++ [.Expression expr]) rest

/-- One iteration of the loop body of `v1::insert::check_columns` (the
inserted columns are a plain list of names here). -/
def v1CheckColumn (insertName : String) (name : String) (column : ColumnInfo)
    (insertedColumns : List ColumnName) : Except Error Unit :=
  if column.nullable = .Nullable ∨ column.hasDefault = .HasDefault
      ∨ column.isIdentity = .IdentityByDefault then
    .ok ()
  else if column.isGenerated = .Stored then
    if insertedColumns.contains { name := column.name } then
      .error (.ColumnIsGenerated name)
    else
      .ok ()
  else if column.isIdentity = .IdentityAlways then
    if insertedColumns.contains { name := column.name } then
      .error (.ColumnIsIdentityAlways name)
    else
      .ok ()
  else
    if insertedColumns.contains { name := column.name } then
      .ok ()
    else
      .error (.MissingColumnInInsert name insertName)

/-- `v1::insert::check_columns`. -/
def v1CheckColumns (columns : List (String × ColumnInfo))
    (insertedColumns : List ColumnName) (insertName : String) : Except Error Unit :=
  match columns with
  | [] => .ok ()
  | (name, column) :: rest =>
      match v1CheckColumn insertName name column insertedColumns with
      | .error e => .error e
      | .ok () => v1CheckColumns rest insertedColumns insertName

/-- `v1::insert::translate`: the `_object` argument is matched only
against the JSON-object constructor; every other constructor hits the
`todo!()` arm and panics. -/
def v1InsertTranslate (env : Env) (state : State) (mutation : V1InsertMutation)
    (arguments : List (String × Json)) : Outcome (Insert × ColumnAlias × State) :=
  match assocLookup "_object" arguments with
  | none => .err (.ArgumentNotFound "_object")
  | some object =>
      match object with
      | .obj fields =>
          match v1TranslateObjectFields mutation state [] [] fields with
          | .error e => .err e
          | .ok ((columns, values), state1) =>
              match v1CheckColumns mutation.columns columns mutation.collectionName with
              | .error e => .err e
              | .ok () =>
                  let checkConstraintAlias := makeColumnAlias checkConstraintField
                  .ok ({ schema := mutation.schemaName,
                         table := mutation.tableName,
                         columns := columns,
                         values := [values],
                         returning := .Returning (.SelectListComposite .SelectStar
                           (.SelectListValues [(checkConstraintAlias, trueExpr)])) },
                       checkConstraintAlias, state1)
      | _ => .panic "not yet implemented"

/-! ## Auto-generated update mutations, experimental version
(`translation::mutation::experimental::update`) -/

/-- `sql::ast::MutationValueExpression`. -/
inductive MutationValueExpression where
  | Expression (e : Expression) : MutationValueExpression
  | Default : MutationValueExpression

/-- `sql::ast::Update`: `UPDATE <table> SET ... WHERE ... RETURNING ...`. -/
structure Update where
  schema : SchemaName
  table : TableName
  set : List (ColumnName × MutationValueExpression)
  whereClause : Expression
  returning : Returning

/-- The flag of the shared mutation column check: whether a missing
regular column is an error (inserts) or not (updates). -/
inductive CheckMissingColumns where
  | Yes : CheckMissingColumns
  | No : CheckMissingColumns
deriving DecidableEq, Repr

/-- Modelled from the spec: `mutation::check_columns::check_columns`, the
shared per-column rule check used by `parse_set` — nullable, defaulted
and identity-by-default columns are writable; `Stored` and
`IdentityAlways` columns are rejected; under `CheckMissingColumns::No` a
missing regular column is accepted. -/
def sharedCheckColumn (checkMissing : CheckMissingColumns) (insertName : String)
    (name : String) (column : ColumnInfo)
    (setColumns : List (ColumnName × MutationValueExpression)) : Except Error Unit :=
  if column.nullable = .Nullable ∨ column.hasDefault = .HasDefault
      ∨ column.isIdentity = .IdentityByDefault then
    .ok ()
  else if column.isGenerated = .Stored then
    match mapLookup { name := column.name } setColumns with
    | some (.Expression _) => .error (.ColumnIsGenerated name)
    | _ => .ok ()
  else if column.isIdentity = .IdentityAlways then
    match mapLookup { name := column.name } setColumns with
    | some (.Expression _) => .error (.ColumnIsIdentityAlways name)
    | _ => .ok ()
  else
    match checkMissing with
    | .No => .ok ()
    | .Yes =>
        match mapLookup { name := column.name } setColumns with
        | some (.Expression _) => .ok ()
        | _ => .error (.MissingColumnInInsert name insertName)

/-- Modelled from the spec: the column loop of the shared
`check_columns`. -/
def sharedCheckColumns (checkMissing : CheckMissingColumns)
    (columns : List (String × ColumnInfo))
    (setColumns : List (ColumnName × MutationValueExpression)) (insertName : String) :
    Except Error Unit :=
  match columns with
  | [] => .ok ()
  | (name, column) :: rest =>
      match sharedCheckColumn checkMissing insertName name column setColumns with
      | .error e => .error e
      | .ok () => sharedCheckColumns checkMissing rest setColumns insertName

/-- `experimental::update::UpdateByKey`. -/
structure UpdateByKey where
  collectionName : String
  description : String
  schemaName : SchemaName
  tableName : TableName
  byColumn : ColumnInfo
  setArgumentName : String
  preCheck : Constraint
  postCheck : Constraint
  columns : List (String × ColumnInfo)
deriving DecidableEq, Repr

/-- The field loop of `experimental::update::parse_set`. -/
def parseSetFields (mutation : UpdateByKey) (state : State)
    (acc : List (ColumnName × MutationValueExpression)) :
    List (String × Json) →
    Except Error (List (ColumnName × MutationValueExpression) × State)
  | [] => .ok (acc, state)
  | (name, value) :: rest =>
      match assocLookup name mutation.columns with
      | none => .error (.ColumnNotFoundInCollection name mutation.collectionName)
      | some columnInfo =>
          match translateJsonValue state value columnInfo.type with
          | .error e => .error e
          | .ok (expr, state1) =>
              parseSetFields mutation state1
                (mapInsert { name := columnInfo.name } (.Expression expr) acc) rest

/-- `experimental::update::parse_set`: translate the `_set` object into a
mapping from column names to values, then run the shared column check
with `CheckMissingColumns::No`. -/
def parseSet (env : Env) (state : State) (mutation : UpdateByKey) (object : Json) :
    Except Error (List (ColumnName × MutationValueExpression) × State) :=
  match object with
  | .obj fields =>
      match parseSetFields mutation state [] fields with
      | .error e => .error e
      | .ok (columnsToValues, state1) =>
          match sharedCheckColumns .No mutation.columns columnsToValues
              mutation.collectionName with
          | .error e => .error e
          | .ok () => .ok (columnsToValues, state1)
  | .arr _ => .error (.UnexpectedStructure
      "array structure in update _set argument. Expecting an object.")
  | _ => .error (.UnexpectedStructure
      "value structure in update _set argument. Expecting an object.")

/-- `experimental::update::translate` (the `UpdateByKey` arm): the key
argument's value translation result is taken with `.unwrap()`, which
panics on an error value. -/
def updateTranslate (oracles : PredicateOracles) (env : Env) (state : State)
    (mutation : UpdateByKey) (arguments : List (String × Json)) :
    Outcome (Update × ColumnAlias × State) :=
  match assocLookup mutation.setArgumentName arguments with
  | none => .err (.ArgumentNotFound "_set")
  | some object =>
      match parseSet env state mutation object with
      | .error e => .err e
      | .ok (set, state1) =>
          let tableNameAndReference : TableNameAndReference :=
            { name := mutation.collectionName,
              reference := .DBTable mutation.schemaName mutation.tableName }
          match assocLookup mutation.byColumn.name arguments with
          | none => .err (.ArgumentNotFound mutation.byColumn.name)
          | some uniqueKey =>
              match translateJsonValue state1 uniqueKey mutation.byColumn.type with
              | .error _ => .panic "called Result::unwrap() on an Err value"
              | .ok (keyValue, state2) =>
                  let uniqueExpression : Expression :=
                    .BinaryOperation
                      (.ColumnReference (.TableColumn tableNameAndReference.reference
                        { name := mutation.byColumn.name }))
                      { op := "=" } keyValue
                  match assocLookup mutation.preCheck.argumentName arguments with
                  | none => .err (.ArgumentNotFound mutation.preCheck.argumentName)
                  | some preJson =>
                      match oracles.parsePredicate preJson with
                      | none => .err (.ArgumentNotFound mutation.preCheck.argumentName)
                      | some prePredicate =>
                          match oracles.translateExpression state2
                              { rootTable := tableNameAndReference,
                                currentTable := tableNameAndReference } prePredicate with
                          | .error e => .err e
                          | .ok (preExpression, state3) =>
                              match assocLookup mutation.postCheck.argumentName arguments with
                              | none => .err (.ArgumentNotFound mutation.postCheck.argumentName)
                              | some postJson =>
                                  match oracles.parsePredicate postJson with
                                  | none => .err (.ArgumentNotFound mutation.postCheck.argumentName)
                                  | some postPredicate =>
                                      match oracles.translateExpression state3
                                          { rootTable := tableNameAndReference,
                                            currentTable := tableNameAndReference }
                                          postPredicate with
                                      | .error e => .err e
                                      | .ok (postExpression, state4) =>
                                          let checkConstraintAlias :=
                                            makeColumnAlias checkConstraintField
                                          .ok ({ schema := mutation.schemaName,
                                                 table := mutation.tableName,
                                                 set := set,
                                                 whereClause :=
                                                  .And uniqueExpression preExpression,
                                                 returning := .Returning
                                                  (.SelectListComposite .SelectStar
                                                    (.SelectListValues
                                                      [(checkConstraintAlias,
                                                        postExpression)])) },
                                               checkConstraintAlias, state4)

end NdcPostgres

namespace NdcPostgres

/-! ## Field selection (`ndc_sdk::models::Field`, `models::NestedField`) -/

mutual

/-- `models::Field`: a column selection (possibly with nested fields) or
a relationship selection.  The relationship's query and arguments are
elided because `translate_fields` only records them for the relationship
layer; no settled claim concerns them. -/
inductive NdcField where
  | Column (column : String) (fields : Option NestedField) : NdcField
  | Relationship (relationshipName : String) : NdcField

/-- `models::NestedField`. -/
inductive NestedField where
  | Object (fields : List (String × NdcField)) : NestedField
  | Array (fields : NestedField) : NestedField

end

/-- `relationships::JoinFieldInfo` (the query and argument payloads are
elided, as in `NdcField.Relationship`). -/
structure JoinFieldInfo where
  tableAlias : TableAlias
  columnAlias : ColumnAlias
  relationshipName : String

/-- `fields::JoinNestedFieldInfo`: the salient parts of a joined-on
subquery computing a nested field selection. -/
structure JoinNestedFieldInfo where
  select : Select
  als : TableAlias

/-- `fields::translate_nested_field_joins`: turn the collected nested
field subqueries into lateral joins. -/
def translateNestedFieldJoins (joins : List JoinNestedFieldInfo) : List Join :=
  joins.map (fun j => .LeftOuterJoinLateral j.select j.als)

/-- The result of running translator code under a recursion-depth bound:
success, a translation error, or exhaustion of the bound.  The bound is a
proof device only — the Rust recursion is bounded by the (non-recursive)
composite types of the catalog. -/
inductive TResult (α : Type) where
  | ok (a : α) : TResult α
  | err (e : Error) : TResult α
  | fuelOut : TResult α

namespace TResult

def bind {α β : Type} : TResult α → (α → TResult β) → TResult β
  | .ok a, f => f a
  | .err e, _ => .err e
  | .fuelOut, _ => .fuelOut

instance : Monad TResult where
  pure := .ok
  bind := bind

def ofExcept {α : Type} : Except Error α → TResult α
  | .ok a => .ok a
  | .error e => .err e

end TResult

/-- `fields::get_type_representation_cast_type`: if a type representation
requires a cast at projection time, the scalar type name to cast to. -/
def getTypeRepresentationCastType : TypeRepresentation → Option ScalarTypeName
  | .Int64AsString => some (ScalarTypeName.newUnqualified "text")
  | .BigDecimalAsString => some (ScalarTypeName.newUnqualified "text")
  | .Boolean => none
  | .String => none
  | .Float32 => none
  | .Float64 => none
  | .Int16 => none
  | .Int32 => none
  | .Int64 => none
  | .BigDecimal => none
  | .Timestamp => none
  | .Timestamptz => none
  | .Time => none
  | .Timetz => none
  | .Date => none
  | .UUID => none
  | .Geography => none
  | .Geometry => none
  | .Json => none
  | .Enum _ => none

/-- `fields::wrap_in_type_representation`: wrap a projected column in the
cast its type representation requires, if any. -/
def wrapInTypeRepresentation (expression : Expression)
    (columnTypeRepresentation : Option TypeRepresentation) : Expression :=
  match columnTypeRepresentation with
  | none => expression
  | some typeRep =>
      match getTypeRepresentationCastType typeRep with
      | some castType => .Cast expression castType
      | none => expression

/-- `fields::wrap_array_in_type_representation`: as
`wrap_in_type_representation`, but the cast type becomes an array type
(element-wise cast). -/
def wrapArrayInTypeRepresentation (expression : Expression)
    (columnTypeRepresentation : Option TypeRepresentation) : Expression :=
  match columnTypeRepresentation with
  | none => expression
  | some typeRep =>
      match getTypeRepresentationCastType typeRep with
      | some castType => .Cast expression { castType with isArray := true }
      | none => expression

/-- `fields::unpack_composite_type`: an explicit `NestedField` selecting
all fields (one level) of a composite type. -/
def unpackCompositeType (env : Env) (compositeType : String) : Except Error NestedField :=
  match env.lookupCompositeType compositeType with
  | .error e => .error e
  | .ok ct =>
      .ok (.Object (ct.fields.map (fun p => (p.1, .Column p.2.name none))))

mutual

/-- `fields::translate_fields`: translate the field selection of a query
to SQL; mutually recursive with `translate_nested_field`.  The collected
relationship joins (`join_relationship_fields`) are threaded through
explicitly. -/
def translateFields (fuel : Nat) (env : Env) (state : State)
    (fields : List (String × NdcField)) (currentTable : TableNameAndReference)
    (joinRelationshipFields : List JoinFieldInfo) :
    TResult (Select × List JoinFieldInfo × State) :=
  match fuel with
  | 0 => .fuelOut
  | fuel + 1 =>
      match Env.lookupFieldsInfo env currentTable.name with
      | .error e => .err e
      | .ok fieldsInfo =>
          match translateFieldsList fuel env state fieldsInfo currentTable
              joinRelationshipFields [] fields with
          | .err e => .err e
          | .fuelOut => .fuelOut
          | .ok (columns, joinRel1, nestedFieldJoins, state1) =>
              let select := simpleSelect columns
              let select := select.extendJoins (translateNestedFieldJoins nestedFieldJoins)
              .ok (select, joinRel1, state1)

/-- The per-field loop of `translate_fields` (the `map`/`collect` over
the requested fields, with the two mutable accumulators made explicit). -/
def translateFieldsList (fuel : Nat) (env : Env) (state : State)
    (fieldsInfo : FieldsInfo) (currentTable : TableNameAndReference)
    (joinRelationshipFields : List JoinFieldInfo)
    (nestedFieldJoins : List JoinNestedFieldInfo) :
    List (String × NdcField) →
    TResult (List (ColumnAlias × Expression) × List JoinFieldInfo ×
      List JoinNestedFieldInfo × State)
  | [] => .ok ([], joinRelationshipFields, nestedFieldJoins, state)
  | (als, field) :: rest =>
      match fuel with
      | 0 => .fuelOut
      | fuel + 1 =>
          match field with
          | .Column column none =>
              match unpackAndWrapFields fuel env state currentTable
                  joinRelationshipFields column (makeColumnAlias als) fieldsInfo
                  nestedFieldJoins with
              | .err e => .err e
              | .fuelOut => .fuelOut
              | .ok (columnPair, joinRel1, nestedJoins1, state1) =>
                  match translateFieldsList fuel env state1 fieldsInfo currentTable
                      joinRel1 nestedJoins1 rest with
                  | .err e => .err e
                  | .fuelOut => .fuelOut
                  | .ok (columns, joinRel2, nestedJoins2, state2) =>
                      .ok (columnPair :: columns, joinRel2, nestedJoins2, state2)
          | .Column column (some nestedField) =>
              match FieldsInfo.lookupColumn fieldsInfo column with
              | .error e => .err e
              | .ok columnInfo =>
                  match translateNestedField fuel env state currentTable columnInfo
                      nestedField joinRelationshipFields with
                  | .err e => .err e
                  | .fuelOut => .fuelOut
                  | .ok ((nestedFieldJoin, nestedColumnReference), joinRel1, state1) =>
                      match translateFieldsList fuel env state1 fieldsInfo currentTable
                          joinRel1 (nestedFieldJoins ++ [nestedFieldJoin]) rest with
                      | .err e => .err e
                      | .fuelOut => .fuelOut
                      | .ok (columns, joinRel2, nestedJoins2, state2) =>
                          .ok ((makeColumnAlias als,
                                .ColumnReference nestedColumnReference) :: columns,
                               joinRel2, nestedJoins2, state2)
          | .Relationship relationshipName =>
              let (tableAlias, state1) := State.makeRelationshipTableAlias state als
              let columnAlias := makeColumnAlias als
              let columnName : ColumnReference :=
                .AliasedColumn (.AliasedTable tableAlias) columnAlias
              match translateFieldsList fuel env state1 fieldsInfo currentTable
                  (joinRelationshipFields ++
                    [{ tableAlias := tableAlias, columnAlias := columnAlias,
                       relationshipName := relationshipName }])
                  nestedFieldJoins rest with
              | .err e => .err e
              | .fuelOut => .fuelOut
              | .ok (columns, joinRel2, nestedJoins2, state2) =>
                  .ok ((columnAlias, .ColumnReference columnName) :: columns,
                       joinRel2, nestedJoins2, state2)

/-- `fields::translate_nested_field`: translate a nested field selection
into a lateral-joined subquery plus the column reference to its collected
value. -/
def translateNestedField (fuel : Nat) (env : Env) (state : State)
    (currentTable : TableNameAndReference) (currentColumn : TransColumnInfo)
    (field : NestedField) (joinRelationshipFields : List JoinFieldInfo) :
    TResult ((JoinNestedFieldInfo × ColumnReference) × List JoinFieldInfo × State) :=
  match fuel with
  | 0 => .fuelOut
  | fuel + 1 =>
      let nestedFieldColumnCollectAlias : ColumnAlias := { name := "collected" }
      let (nestedFieldsAlias, state1) := State.makeTableAlias state "nested_fields"
      let header :
          Except Error (Expression × Expression × String × List (String × NdcField)) :=
        match field with
        | .Object fields =>
            let collectExpression :=
              Expression.RowToJson (.AliasedTable nestedFieldsAlias)
            let fieldBindingExpression :=
              Expression.ColumnReference (.AliasedColumn currentTable.reference
                { name := currentColumn.name.name })
            match currentColumn.type with
            | .CompositeType typeName =>
                .ok (collectExpression, fieldBindingExpression, typeName, fields)
            | t => .error (.NestedFieldNotOfCompositeType currentColumn.name.name t)
        | .Array fields =>
            match fields with
            | .Array _ => .error (.NestedArraysNotSupported currentColumn.name.name)
            | .Object fields =>
                let collectExpression :=
                  Expression.FunctionCall .JsonAgg
                    [.RowToJson (.AliasedTable nestedFieldsAlias)]
                let fieldBindingExpression :=
                  Expression.FunctionCall .Unnest
                    [.ColumnReference (.AliasedColumn currentTable.reference
                      { name := currentColumn.name.name })]
                match currentColumn.type with
                | .ArrayType elementType =>
                    match elementType with
                    | .CompositeType typeName =>
                        .ok (collectExpression, fieldBindingExpression, typeName, fields)
                    | t => .error (.NestedFieldNotOfCompositeType
                        currentColumn.name.name t)
                | t => .error (.NestedFieldNotOfArrayType currentColumn.name.name t)
      match header with
      | .error e => .err e
      | .ok (collectExpression, fieldBindingExpression, nestedFieldTypeName, fields) =>
          let (nestedFieldBindingAlias, state2) :=
            State.makeTableAlias state1 "nested_field_binding"
          let nestedFieldFrom :=
            From.SelectFrom (selectComposite fieldBindingExpression)
              nestedFieldBindingAlias
          let nestedFieldTableReference : TableNameAndReference :=
            { name := nestedFieldTypeName,
              reference := .AliasedTable nestedFieldBindingAlias }
          match translateFields fuel env state2 fields nestedFieldTableReference
              joinRelationshipFields with
          | .err e => .err e
          | .fuelOut => .fuelOut
          | .ok (fieldsSelect, joinRel1, state3) =>
              let fieldsSelect := fieldsSelect.setFrom (some nestedFieldFrom)
              let collectSelect :=
                (simpleSelect
                  [(nestedFieldColumnCollectAlias, collectExpression)]).setFrom
                  (some (.SelectFrom fieldsSelect nestedFieldsAlias))
              let (nestedFieldTableCollectAlias, state4) :=
                State.makeTableAlias state3 "nested_fields_collect"
              .ok (({ select := collectSelect, als := nestedFieldTableCollectAlias },
                    .AliasedColumn (.AliasedTable nestedFieldTableCollectAlias)
                      nestedFieldColumnCollectAlias),
                   joinRel1, state4)

/-- `fields::unpack_and_wrap_fields`: project a plain column, wrapping it
in its type-representation cast; composite (and array-of-composite)
columns are unpacked through a synthetic nested field selection. -/
def unpackAndWrapFields (fuel : Nat) (env : Env) (state : State)
    (currentTable : TableNameAndReference)
    (joinRelationshipFields : List JoinFieldInfo) (column : String)
    (als : ColumnAlias) (fieldsInfo : FieldsInfo)
    (nestedFieldJoins : List JoinNestedFieldInfo) :
    TResult ((ColumnAlias × Expression) × List JoinFieldInfo ×
      List JoinNestedFieldInfo × State) :=
  match fuel with
  | 0 => .fuelOut
  | fuel + 1 =>
      match FieldsInfo.lookupColumn fieldsInfo column with
      | .error e => .err e
      | .ok columnInfo =>
          match columnInfo.type with
          | .ScalarType scalarType =>
              let columnTypeRepresentation := env.lookupTypeRepresentation scalarType
              let (als1, expression) :=
                makeColumn currentTable.reference columnInfo.name als
              .ok ((als1, wrapInTypeRepresentation expression columnTypeRepresentation),
                   joinRelationshipFields, nestedFieldJoins, state)
          | .CompositeType compositeType =>
              match unpackCompositeType env compositeType with
              | .error e => .err e
              | .ok nestedField =>
                  match translateNestedField fuel env state currentTable columnInfo
                      nestedField joinRelationshipFields with
                  | .err e => .err e
                  | .fuelOut => .fuelOut
                  | .ok ((nestedFieldJoin, nestedColumnReference), joinRel1, state1) =>
                      .ok ((als, .ColumnReference nestedColumnReference), joinRel1,
                           nestedFieldJoins ++ [nestedFieldJoin], state1)
          | .ArrayType inner =>
              match inner with
              | .ArrayType _ => .err (.NestedArraysNotSupported column)
              | .CompositeType compositeType =>
                  match unpackCompositeType env compositeType with
                  | .error e => .err e
                  | .ok innerNestedField =>
                      match translateNestedField fuel env state currentTable columnInfo
                          (.Array innerNestedField) joinRelationshipFields with
                      | .err e => .err e
                      | .fuelOut => .fuelOut
                      | .ok ((nestedFieldJoin, nestedColumnReference), joinRel1,
                             state1) =>
                          .ok ((als, .ColumnReference nestedColumnReference), joinRel1,
                               nestedFieldJoins ++ [nestedFieldJoin], state1)
              | .ScalarType scalarType =>
                  let innerColumnTypeRepresentation :=
                    env.lookupTypeRepresentation scalarType
                  let (als1, expression) :=
                    makeColumn currentTable.reference columnInfo.name als
                  .ok ((als1, wrapArrayInTypeRepresentation expression
                         innerColumnTypeRepresentation),
                       joinRelationshipFields, nestedFieldJoins, state)

end

end NdcPostgres

namespace NdcPostgres

/-! ## Query root (`translation::query::root`) -/

/-- The aggregates of a query (`IndexMap<String, models::Aggregate>`);
carried opaquely, their translation is delegated to an oracle. -/
structure AggregateFields where
  raw : Json

/-- The `order_by` of a query (`models::OrderBy`); carried opaquely, its
translation is delegated to an oracle. -/
structure OrderByArg where
  raw : Json

/-- `models::Query`: the parts of an NDC query the root translator
consumes. -/
structure NdcQuery where
  aggregates : Option AggregateFields
  fields : Option (List (String × NdcField))
  orderBy : Option OrderByArg
  predicate : Option NdcExpression
  limit : Option Nat
  offset : Option Nat

/-- The collaborators of the query-root translator that live in sibling
modules: `sorting::translate_order_by`, `filtering::translate_expression`,
`relationships::translate_joins` and `aggregates::translate`.  The root
theorems quantify over all possible behaviours of these. -/
structure QueryOracles where
  translateOrderBy : Env → State → RootAndCurrentTables → Option OrderByArg →
    Except Error ((List OrderByElement × List Join) × State)
  translateExpression : Env → State → RootAndCurrentTables → NdcExpression →
    Except Error ((Expression × List Join) × State)
  translateJoins : Env → State → RootAndCurrentTables → List JoinFieldInfo →
    Except Error (List Join × State)
  aggregatesTranslate : TableReference → AggregateFields →
    Except Error (List (ColumnAlias × Expression))

/-- `root::translate_query_part`: the common part of the rows and
aggregates translations — joins, ORDER BY and WHERE, but neither LIMIT
nor OFFSET, which the caller must add afterwards if it wants them. -/
def translateQueryPart (oracles : QueryOracles) (env : Env) (state : State)
    (currentTable : TableNameAndReference) (query : NdcQuery) (select : Select)
    (joinRelationshipFields : List JoinFieldInfo) : Except Error (Select × State) :=
  let rootAndCurrentTables : RootAndCurrentTables :=
    { rootTable := currentTable, currentTable := currentTable }
  match oracles.translateOrderBy env state rootAndCurrentTables query.orderBy with
  | .error e => .error e
  | .ok ((orderBy, orderByJoins), state1) =>
      let select := select.extendJoins orderByJoins
      match
        match query.predicate with
        | none => Except.ok ((trueExpr, ([] : List Join)), state1)
        | some predicate =>
            oracles.translateExpression env state1 rootAndCurrentTables predicate
      with
      | .error e => .error e
      | .ok ((filter, filterJoins), state2) =>
          let select := select.setWhere filter
          match oracles.translateJoins env state2 rootAndCurrentTables
              joinRelationshipFields with
          | .error e => .error e
          | .ok (relationshipJoins, state3) =>
              let select := select.extendJoins relationshipJoins
              let select := select.extendJoins filterJoins
              let select := select.setOrderBy orderBy
              .ok (select, state3)

/-- `root::translate_aggregate_query`: translate the aggregates part of a
query; the ORDER BY produced by `translate_query_part` is removed and no
LIMIT is added. -/
def translateAggregateQuery (oracles : QueryOracles) (env : Env) (state : State)
    (currentTable : TableNameAndReference) (fromClause : From) (query : NdcQuery) :
    Except Error (Option Select × State) :=
  match query.aggregates with
  | none => .ok (none, state)
  | some aggregateFields =>
      match oracles.aggregatesTranslate currentTable.reference aggregateFields with
      | .error e => .error e
      | .ok aggregateColumns =>
          let columnsSelect := simpleSelect aggregateColumns
          match translateQueryPart oracles env state currentTable query columnsSelect
              [] with
          | .error e => .error e
          | .ok (select, state1) =>
              let select := select.setOrderBy emptyOrderBy
              let select := select.setFrom (some fromClause)
              .ok (some select, state1)

/-- `root::ReturnsFields`: whether the rows query returns fields. -/
inductive ReturnsFields where
  | FieldsWereRequested : ReturnsFields
  | NoFieldsWereRequested : ReturnsFields
deriving DecidableEq, Repr

/-- `root::translate_rows_query`: translate the rows part of a query; the
LIMIT/OFFSET of the request is added here, after `translate_query_part`. -/
def translateRowsQuery (fuel : Nat) (oracles : QueryOracles) (env : Env)
    (state : State) (currentTable : TableNameAndReference) (fromClause : From)
    (query : NdcQuery) : TResult ((ReturnsFields × Select) × State) :=
  let fields := query.fields.getD []
  let returnsFields :=
    if fields.isEmpty then ReturnsFields.NoFieldsWereRequested
    else ReturnsFields.FieldsWereRequested
  match translateFields fuel env state fields currentTable [] with
  | .err e => .err e
  | .fuelOut => .fuelOut
  | .ok (fieldsSelect, joinRelationshipFields, state1) =>
      match translateQueryPart oracles env state1 currentTable query fieldsSelect
          joinRelationshipFields with
      | .error e => .err e
      | .ok (select, state2) =>
          let select := select.setFrom (some fromClause)
          let select := select.setLimit { limit := query.limit, offset := query.offset }
          .ok ((returnsFields, select), state2)

/-! ## The CLI's configuration file (`crates/cli/src/lib.rs`)

`initialize` and `update` both persist `configuration.json` with
`serde_json::to_writer_pretty`.  The serialized top-level value is the
`RawConfiguration` struct, a JSON object.  The pretty printer
(`serde_json::ser::PrettyFormatter`, two-space indent) is modelled
character-for-character below; what matters for the claims is the exact
tail of its output. -/

/-- A JSON document as the CLI serializes it (numbers carried as their
rendered digit sequence). -/
inductive JsonDoc where
  | null : JsonDoc
  | bool (b : Bool) : JsonDoc
  | num (n : Int) : JsonDoc
  | str (s : String) : JsonDoc
  | arr (elements : List JsonDoc) : JsonDoc
  | obj (fields : List (String × JsonDoc)) : JsonDoc

/-- The hexadecimal digit characters used in `\u00XX` escapes. -/
def hexDigit (n : Nat) : Char :=
  if n < 10 then Char.ofNat (48 + n) else Char.ofNat (87 + n)

/-- `serde_json`'s string escaping: quotes and backslashes are
backslash-escaped, control characters use the short escapes or
`\u00XX`. -/
def escapeChar (c : Char) : List Char :=
  if c = '"' then ['\\', '"']
  else if c = '\\' then ['\\', '\\']
  else if c = Char.ofNat 8 then ['\\', 'b']
  else if c = Char.ofNat 9 then ['\\', 't']
  else if c = Char.ofNat 10 then ['\\', 'n']
  else if c = Char.ofNat 12 then ['\\', 'f']
  else if c = Char.ofNat 13 then ['\\', 'r']
  else if c.toNat < 32 then
    ['\\', 'u', '0', '0', hexDigit (c.toNat / 16), hexDigit (c.toNat % 16)]
  else [c]

/-- A serialized JSON string literal, quotes included. -/
def serializeString (s : String) : List Char :=
  '"' :: (s.toList.foldr (fun c acc => escapeChar c ++ acc) ['"'])

/-- The two-space indentation of `PrettyFormatter` at a nesting level. -/
def indentChars (level : Nat) : List Char :=
  List.replicate (2 * level) ' '

mutual

/-- `serde_json::to_writer_pretty`, at a nesting level. -/
def serializeDoc (level : Nat) : JsonDoc → List Char
  | .null => "null".toList
  | .bool b => (if b then "true" else "false").toList
  | .num n => (toString n).toList
  | .str s => serializeString s
  | .arr [] => ['[', ']']
  | .arr (x :: xs) =>
      '[' :: '\n' :: indentChars (level + 1) ++ serializeDoc (level + 1) x ++
        serializeArrayTail (level + 1) xs ++ '\n' :: indentChars level ++ [']']
  | .obj [] => ['{', '}']
  | .obj (f :: fs) =>
      '{' :: '\n' :: indentChars (level + 1) ++ serializeField (level + 1) f ++
        serializeObjectTail (level + 1) fs ++ '\n' :: indentChars level ++ ['}']

/-- The remaining elements of a non-empty array, each preceded by a comma,
a newline and indentation. -/
def serializeArrayTail (level : Nat) : List JsonDoc → List Char
  | [] => []
  | x :: xs =>
      ',' :: '\n' :: indentChars level ++ serializeDoc level x ++
        serializeArrayTail level xs

/-- One `"key": value` member of an object. -/
def serializeField (level : Nat) : String × JsonDoc → List Char
  | (key, value) => serializeString key ++ ':' :: ' ' :: serializeDoc level value

/-- The remaining members of a non-empty object. -/
def serializeObjectTail (level : Nat) : List (String × JsonDoc) → List Char
  | [] => []
  | f :: fs =>
      ',' :: '\n' :: indentChars level ++ serializeField level f ++
        serializeObjectTail level fs

end

/-- The bytes `cli::update` persists to `configuration.json` on success:
`serde_json::to_writer_pretty` applied to the introspected
`RawConfiguration`, which serializes as a JSON object with the given
members.  Nothing is appended after the serializer finishes. -/
def updateConfigurationFileContent (introspected : List (String × JsonDoc)) :
    List Char :=
  serializeDoc 0 (.obj introspected)

/-- The bytes `cli::initialize` persists to `configuration.json` on
success: `serde_json::to_writer_pretty` applied to
`RawConfiguration::empty()`, again a JSON object. -/
def initializeConfigurationFileContent (emptyConfiguration : List (String × JsonDoc)) :
    List Char :=
  serializeDoc 0 (.obj emptyConfiguration)

/-- Whether a persisted file content ends with a newline character. -/
def endsWithNewline (content : List Char) : Bool :=
  content.getLast? = some '\n'

end NdcPostgres

namespace NdcPostgres

/-! # Properties

Helper lemmas first, then one theorem per settled claim. -/

theorem runAliasRequest_index (s : State) (r : AliasRequest) :
    (runAliasRequest s r).1.uniqueIndex = s.globalTableIndex ∧
    (runAliasRequest s r).2.globalTableIndex = s.globalTableIndex + 1 := by
  cases r <;>
    simp [runAliasRequest, State.makeTableAlias, State.makeRelationshipTableAlias,
      State.makeOrderPathPartTableAlias, State.makeOrderByTableAlias,
      State.makeNativeQueryTableAlias, State.makeBooleanExpressionTableAlias,
      State.nextGlobalTableIndex]

theorem runAliasRequests_indices (s : State) (rs : List AliasRequest) :
    ((runAliasRequests s rs).1.map TableAlias.uniqueIndex) =
      List.range' s.globalTableIndex rs.length := by
  induction rs generalizing s with
  | nil => simp [runAliasRequests]
  | cons r rs ih =>
      obtain ⟨h1, h2⟩ := runAliasRequest_index s r
      rcases hra : runAliasRequest s r with ⟨a, s1⟩
      rw [hra] at h1 h2
      simp only [runAliasRequests, hra, List.map_cons, List.length_cons,
        List.range'_succ]
      rw [ih s1, h1, h2]

/-- Claim C5: within one translation, every alias-creating call on the
`State` (`make_table_alias` and its hint-prefixed variants) returns an
alias whose unique index is strictly greater than that of every
previously returned alias; consequently no two issued aliases agree, so
no `(unique_index, name)` pair is ever issued twice. -/
theorem alias_unique_index_strictly_monotonic (s : State) (rs : List AliasRequest) :
    (((runAliasRequests s rs).1.map TableAlias.uniqueIndex).Pairwise (· < ·)) ∧
    ((runAliasRequests s rs).1.Pairwise (· ≠ ·)) := by
  have hidx := runAliasRequests_indices s rs
  have hlt : ((runAliasRequests s rs).1.map TableAlias.uniqueIndex).Pairwise (· < ·) := by
    rw [hidx]; exact List.pairwise_lt_range' _ _
  refine ⟨hlt, ?_⟩
  have := List.pairwise_map.mp hlt
  exact this.imp (fun {a b} hab heq => absurd (congrArg TableAlias.uniqueIndex heq)
    (Nat.ne_of_lt hab))

/-- Claim C6: `translate_json_value` maps JSON `null` to
`CAST(NULL AS <type>)`, and a JSON value whose constructor does not match
the expected type (a JSON array at a non-array type, a JSON object at a
non-composite type) falls through to `CAST(CAST(<json> AS jsonb) AS
<type>)` instead of an error. -/
theorem translateJsonValue_null_and_mismatch (state : State) (ty : DbType) :
    (translateJsonValue state .null ty =
      .ok (.Cast (.Value .Null) (typeToAstScalarType ty), state)) ∧
    (∀ elements, ty.isArrayType = false →
      translateJsonValue state (.arr elements) ty =
        .ok (.Cast (.Cast (.Value (.JsonValue (.arr elements)))
          (ScalarTypeName.newUnqualified "jsonb")) (typeToAstScalarType ty), state)) ∧
    (∀ fields, ty.isCompositeType = false →
      translateJsonValue state (.obj fields) ty =
        .ok (.Cast (.Cast (.Value (.JsonValue (.obj fields)))
          (ScalarTypeName.newUnqualified "jsonb")) (typeToAstScalarType ty), state)) := by
  refine ⟨?_, ?_, ?_⟩
  · cases ty <;> rfl
  · intro elements h
    cases ty with
    | ScalarType t => rfl
    | CompositeType t => rfl
    | ArrayType t => simp [DbType.isArrayType] at h
  · intro fields h
    cases ty with
    | ScalarType t => rfl
    | CompositeType t => simp [DbType.isCompositeType] at h
    | ArrayType t => rfl

/-- Witness for claim C6 at concrete inputs: a JSON array expected at the
scalar type `int4`, and a JSON object expected at an array type. -/
theorem translateJsonValue_null_and_mismatch_witness :
    (translateJsonValue State.new (.arr [.null]) (.ScalarType "int4") =
      .ok (.Cast (.Cast (.Value (.JsonValue (.arr [.null])))
        (ScalarTypeName.newUnqualified "jsonb"))
        (typeToAstScalarType (.ScalarType "int4")), State.new)) ∧
    (translateJsonValue State.new (.obj [("a", .null)])
        (.ArrayType (.ScalarType "int4")) =
      .ok (.Cast (.Cast (.Value (.JsonValue (.obj [("a", .null)])))
        (ScalarTypeName.newUnqualified "jsonb"))
        (typeToAstScalarType (.ArrayType (.ScalarType "int4"))), State.new)) :=
  ⟨(translateJsonValue_null_and_mismatch State.new (.ScalarType "int4")).2.1
      [.null] rfl,
   (translateJsonValue_null_and_mismatch State.new
      (.ArrayType (.ScalarType "int4"))).2.2 [("a", .null)] rfl⟩

end NdcPostgres

namespace NdcPostgres

/-- Claim C8: at projection time, a column whose type representation is
`Int64AsString` or `BigDecimalAsString` is wrapped in `CAST(expr AS
text)` (element-wise for array columns, via a `text[]` cast); a column of
any other representation, or with no declared representation, is
projected with no cast.  The last conjunct anchors this at the projection
site: `unpack_and_wrap_fields` projects a scalar column as the wrapped
column reference. -/
theorem type_representation_casts (expression : Expression) :
    (wrapInTypeRepresentation expression (some .Int64AsString) =
      .Cast expression (ScalarTypeName.newUnqualified "text")) ∧
    (wrapInTypeRepresentation expression (some .BigDecimalAsString) =
      .Cast expression (ScalarTypeName.newUnqualified "text")) ∧
    (wrapArrayInTypeRepresentation expression (some .Int64AsString) =
      .Cast expression { name := "text", isArray := true }) ∧
    (wrapArrayInTypeRepresentation expression (some .BigDecimalAsString) =
      .Cast expression { name := "text", isArray := true }) ∧
    (∀ typeRep : TypeRepresentation,
      typeRep ≠ .Int64AsString → typeRep ≠ .BigDecimalAsString →
      wrapInTypeRepresentation expression (some typeRep) = expression ∧
      wrapArrayInTypeRepresentation expression (some typeRep) = expression) ∧
    (wrapInTypeRepresentation expression none = expression) ∧
    (wrapArrayInTypeRepresentation expression none = expression) ∧
    (∀ fuel env state currentTable joinRelationshipFields column als fieldsInfo
        nestedFieldJoins columnInfo scalarType,
      FieldsInfo.lookupColumn fieldsInfo column = .ok columnInfo →
      columnInfo.type = .ScalarType scalarType →
      unpackAndWrapFields (fuel + 1) env state currentTable joinRelationshipFields
          column als fieldsInfo nestedFieldJoins =
        .ok ((als, wrapInTypeRepresentation
               (.ColumnReference (.TableColumn currentTable.reference columnInfo.name))
               (env.lookupTypeRepresentation scalarType)),
             joinRelationshipFields, nestedFieldJoins, state)) := by
  refine ⟨rfl, rfl, rfl, rfl, ?_, rfl, rfl, ?_⟩
  · intro typeRep h1 h2
    cases typeRep <;> simp_all [wrapInTypeRepresentation,
      wrapArrayInTypeRepresentation, getTypeRepresentationCastType]
  · intro fuel env state currentTable joinRelationshipFields column als fieldsInfo
      nestedFieldJoins columnInfo scalarType hlookup htype
    simp [unpackAndWrapFields, hlookup, htype, makeColumn]

/-- Witness for claim C8: a concrete catalog in which the column `big` of
table `t` has representation `Int64AsString`; its projection is
`CAST("t"."big" AS text)`. -/
theorem type_representation_casts_witness :
    unpackAndWrapFields 1
        { tables := [], compositeTypes := [],
          typeRepresentations := [("int8", .Int64AsString)] }
        State.new
        { name := "t", reference := .DBTable { name := "public" } { name := "t" } }
        [] "big" (makeColumnAlias "big")
        { sourceName := "t",
          columns := [("big", { name := { name := "big" },
                                type := .ScalarType "int8" })] }
        [] =
      .ok ((makeColumnAlias "big",
            .Cast (.ColumnReference (.TableColumn
              (.DBTable { name := "public" } { name := "t" }) { name := "big" }))
              (ScalarTypeName.newUnqualified "text")),
           [], [], State.new) :=
  (type_representation_casts
      (.ColumnReference (.TableColumn (.DBTable { name := "public" } { name := "t" })
        { name := "big" }))).2.2.2.2.2.2.2
    0 _ State.new _ [] "big" (makeColumnAlias "big") _ []
    { name := { name := "big" }, type := .ScalarType "int8" } "int8" rfl rfl

end NdcPostgres

namespace NdcPostgres

/-- Claim C7: projecting a plain field whose column type is an array of
arrays fails with `NestedArraysNotSupported`, and translating a
nested-object field selection on a column whose type is not a composite
type fails with `NestedFieldNotOfCompositeType`. -/
theorem nested_projection_rejections
    (fuel : Nat) (env : Env) (state : State) (currentTable : TableNameAndReference) :
    (∀ joinRelationshipFields column als fieldsInfo nestedFieldJoins columnInfo inner,
      FieldsInfo.lookupColumn fieldsInfo column = .ok columnInfo →
      columnInfo.type = .ArrayType (.ArrayType inner) →
      unpackAndWrapFields (fuel + 1) env state currentTable joinRelationshipFields
          column als fieldsInfo nestedFieldJoins =
        .err (.NestedArraysNotSupported column)) ∧
    (∀ (currentColumn : TransColumnInfo) (fields : List (String × NdcField))
        (joinRelationshipFields : List JoinFieldInfo),
      currentColumn.type.isCompositeType = false →
      translateNestedField (fuel + 1) env state currentTable currentColumn
          (.Object fields) joinRelationshipFields =
        .err (.NestedFieldNotOfCompositeType currentColumn.name.name
          currentColumn.type)) := by
  constructor
  · intro joinRelationshipFields column als fieldsInfo nestedFieldJoins columnInfo
      inner hlookup htype
    simp [unpackAndWrapFields, hlookup, htype]
  · intro currentColumn fields joinRelationshipFields hnc
    rcases hty : currentColumn.type with t | t | t <;>
      simp_all [translateNestedField, DbType.isCompositeType, hty]

/-- Witness for claim C7: a concrete column of type `int4[][]` is
rejected with `NestedArraysNotSupported`, and a nested-object selection
on a concrete `int4` column is rejected with
`NestedFieldNotOfCompositeType`. -/
theorem nested_projection_rejections_witness :
    (unpackAndWrapFields 1
        { tables := [], compositeTypes := [], typeRepresentations := [] }
        State.new
        { name := "t", reference := .DBTable { name := "public" } { name := "t" } }
        [] "grid" (makeColumnAlias "grid")
        { sourceName := "t",
          columns := [("grid", { name := { name := "grid" },
                                 type := .ArrayType (.ArrayType (.ScalarType "int4")) })] }
        [] =
      .err (.NestedArraysNotSupported "grid")) ∧
    (translateNestedField 1
        { tables := [], compositeTypes := [], typeRepresentations := [] }
        State.new
        { name := "t", reference := .DBTable { name := "public" } { name := "t" } }
        { name := { name := "n" }, type := .ScalarType "int4" }
        (.Object []) [] =
      .err (.NestedFieldNotOfCompositeType "n" (.ScalarType "int4"))) :=
  ⟨(nested_projection_rejections 0
      { tables := [], compositeTypes := [], typeRepresentations := [] } State.new
      { name := "t", reference := .DBTable { name := "public" } { name := "t" } }).1
     [] "grid" (makeColumnAlias "grid") _ []
     { name := { name := "grid" },
       type := .ArrayType (.ArrayType (.ScalarType "int4")) }
     (.ScalarType "int4") rfl rfl,
   (nested_projection_rejections 0
      { tables := [], compositeTypes := [], typeRepresentations := [] } State.new
      { name := "t", reference := .DBTable { name := "public" } { name := "t" } }).2
     { name := { name := "n" }, type := .ScalarType "int4" } [] [] rfl⟩

end NdcPostgres

namespace NdcPostgres

theorem serializeDoc_obj_getLast (level : Nat) (fields : List (String × JsonDoc)) :
    (serializeDoc level (.obj fields)).getLast? = some '}' := by
  cases fields with
  | nil => rfl
  | cons f fs =>
      have h : serializeDoc level (.obj (f :: fs)) =
          ('{' :: '\n' :: (indentChars (level + 1) ++ (serializeField (level + 1) f ++
            (serializeObjectTail (level + 1) fs ++ '\n' :: indentChars level)))) ++ ['}'] := by
        simp [serializeDoc]
      rw [h, List.getLast?_concat]

/-- Claim C9: the configuration file persisted by a successful CLI
`initialize` or `update` does not end with a newline — the serializer's
last byte is the closing brace of the configuration object, and nothing
is written after it.  The last conjunct evaluates the persisted content
at a concrete configuration. -/
theorem configuration_file_lacks_trailing_newline :
    (∀ introspected,
      endsWithNewline (updateConfigurationFileContent introspected) = false) ∧
    (∀ emptyConfiguration,
      endsWithNewline (initializeConfigurationFileContent emptyConfiguration) = false) ∧
    updateConfigurationFileContent [("version", .str "3")] =
      ('{' :: '\n' :: ' ' :: ' ' :: "\"version\": \"3\"".toList ++ ['\n', '}']) := by
  refine ⟨?_, ?_, by decide⟩ <;>
    · intro fs
      simp [endsWithNewline, updateConfigurationFileContent,
        initializeConfigurationFileContent, serializeDoc_obj_getLast]

/-- Claim C4: translation can abort the program.  The v1 insert
translator hits `todo!()` when the `_object` argument is not a JSON
object, and the update-by-key translator calls `.unwrap()` on the key
value's translation, which panics when that translation returns an
error (here: a number `as_f64` cannot represent). -/
theorem mutation_translation_panics :
    (v1InsertTranslate
        { tables := [], compositeTypes := [], typeRepresentations := [] }
        State.new
        { collectionName := "t", description := "", schemaName := { name := "public" },
          tableName := { name := "t" }, columns := [] }
        [("_object", .num (some 1))] =
      .panic "not yet implemented") ∧
    (updateTranslate
        { parsePredicate := fun _ => none,
          translateExpression := fun st _ _ => .ok (trueExpr, st) }
        { tables := [], compositeTypes := [], typeRepresentations := [] }
        State.new
        { collectionName := "t", description := "", schemaName := { name := "public" },
          tableName := { name := "t" },
          byColumn := { name := "id", type := .ScalarType "int4",
                        nullable := .NonNullable, hasDefault := .NoDefault,
                        isIdentity := .NotIdentity, isGenerated := .NotGenerated },
          setArgumentName := "_set",
          preCheck := { argumentName := "pre_check", description := "" },
          postCheck := { argumentName := "post_check", description := "" },
          columns := [] }
        [("_set", .obj []), ("id", .num none)] =
      .panic "called Result::unwrap() on an Err value") := ⟨rfl, rfl⟩

theorem Select.limit_setFrom (s : Select) (f : Option From) :
    (s.setFrom f).limit = s.limit := by cases s; rfl

theorem Select.limit_setWhere (s : Select) (w : Expression) :
    (s.setWhere w).limit = s.limit := by cases s; rfl

theorem Select.limit_extendJoins (s : Select) (js : List Join) :
    (s.extendJoins js).limit = s.limit := by cases s; rfl

theorem Select.limit_setOrderBy (s : Select) (o : List OrderByElement) :
    (s.setOrderBy o).limit = s.limit := by cases s; rfl

theorem Select.limit_setLimit (s : Select) (l : Limit) :
    (s.setLimit l).limit = l := by cases s; rfl

theorem Select.orderBy_setFrom (s : Select) (f : Option From) :
    (s.setFrom f).orderBy = s.orderBy := by cases s; rfl

theorem Select.orderBy_setLimit (s : Select) (l : Limit) :
    (s.setLimit l).orderBy = s.orderBy := by cases s; rfl

theorem Select.orderBy_setOrderBy (s : Select) (o : List OrderByElement) :
    (s.setOrderBy o).orderBy = o := by cases s; rfl

theorem translateQueryPart_limit (oracles : QueryOracles) (env : Env) (state : State)
    (currentTable : TableNameAndReference) (query : NdcQuery) (select : Select)
    (joinRelationshipFields : List JoinFieldInfo) (select' : Select) (state' : State)
    (h : translateQueryPart oracles env state currentTable query select
      joinRelationshipFields = .ok (select', state')) :
    select'.limit = select.limit := by
  simp only [translateQueryPart] at h
  rcases hob : oracles.translateOrderBy env state
      { rootTable := currentTable, currentTable := currentTable } query.orderBy with
    e | ⟨⟨ob, obJoins⟩, st1⟩
  · rw [hob] at h
    exact absurd h (by simp)
  simp only [hob] at h
  rcases hp : query.predicate with _ | p
  all_goals simp only [hp] at h
  · rcases hj : oracles.translateJoins env st1
        { rootTable := currentTable, currentTable := currentTable }
        joinRelationshipFields with e | ⟨rj, st3⟩
    · rw [hj] at h
      exact absurd h (by simp)
    simp only [hj] at h
    simp only [Except.ok.injEq, Prod.mk.injEq] at h
    obtain ⟨h1, -⟩ := h
    subst h1
    simp [Select.limit_setOrderBy, Select.limit_extendJoins, Select.limit_setWhere]
  · rcases he : oracles.translateExpression env st1
        { rootTable := currentTable, currentTable := currentTable } p with
      e | ⟨⟨f, fJoins⟩, st2⟩
    · rw [he] at h
      exact absurd h (by simp)
    simp only [he] at h
    rcases hj : oracles.translateJoins env st2
        { rootTable := currentTable, currentTable := currentTable }
        joinRelationshipFields with e | ⟨rj, st3⟩
    · rw [hj] at h
      exact absurd h (by simp)
    simp only [hj] at h
    simp only [Except.ok.injEq, Prod.mk.injEq] at h
    obtain ⟨h1, -⟩ := h
    subst h1
    simp [Select.limit_setOrderBy, Select.limit_extendJoins, Select.limit_setWhere]

end NdcPostgres

namespace NdcPostgres

/-- Claim C10: the aggregate-branch SELECT produced by
`translate_aggregate_query` has an empty ORDER BY and carries no LIMIT or
OFFSET even when the request specifies `order_by`, `limit` or `offset`
(and whatever the sorting/filtering/relationship collaborators return);
the request's limit and offset are applied only to the rows-branch SELECT
of `translate_rows_query`. -/
theorem aggregate_query_no_order_by_no_limit
    (oracles : QueryOracles) (env : Env) (state : State)
    (currentTable : TableNameAndReference) (fromClause : From) (query : NdcQuery)
    (select : Select) (state1 : State) (fuel : Nat) (returnsFields : ReturnsFields)
    (rowsSelect : Select) (state2 : State)
    (hagg : translateAggregateQuery oracles env state currentTable fromClause query =
      .ok (some select, state1))
    (hrows : translateRowsQuery fuel oracles env state currentTable fromClause query =
      .ok ((returnsFields, rowsSelect), state2)) :
    select.orderBy = [] ∧ select.limit = emptyLimit ∧
    rowsSelect.limit = { limit := query.limit, offset := query.offset } := by
  have hsel : ∃ sel0 st0,
      translateQueryPart oracles env state currentTable query
        (simpleSelect ((query.aggregates.map
          (fun af => (oracles.aggregatesTranslate currentTable.reference af).toOption.getD
            [])).getD []))
        [] = .ok (sel0, st0) ∧
      select = (sel0.setOrderBy emptyOrderBy).setFrom (some fromClause) := by
    simp only [translateAggregateQuery] at hagg
    rcases hqa : query.aggregates with _ | af
    all_goals simp only [hqa] at hagg
    · exact absurd hagg (by simp)
    · rcases hat : oracles.aggregatesTranslate currentTable.reference af with e | cols
      · rw [hat] at hagg
        exact absurd hagg (by simp)
      simp only [hat] at hagg
      rcases hqp : translateQueryPart oracles env state currentTable query
          (simpleSelect cols) [] with e | ⟨sel0, st0⟩
      · rw [hqp] at hagg
        exact absurd hagg (by simp)
      simp only [hqp] at hagg
      simp only [Except.ok.injEq, Prod.mk.injEq, Option.some.injEq] at hagg
      obtain ⟨h1, -⟩ := hagg
      refine ⟨sel0, st0, ?_, h1.symm⟩
      simpa [hqa, hat] using hqp
  obtain ⟨sel0, st0, hqp, hselEq⟩ := hsel
  have horder : select.orderBy = [] := by
    rw [hselEq, Select.orderBy_setFrom, Select.orderBy_setOrderBy, emptyOrderBy]
  have hlimit : select.limit = emptyLimit := by
    rw [hselEq, Select.limit_setFrom, Select.limit_setOrderBy]
    rw [translateQueryPart_limit _ _ _ _ _ _ _ _ _ hqp]
    cases h : simpleSelect ((query.aggregates.map
      (fun af => (oracles.aggregatesTranslate currentTable.reference af).toOption.getD
        [])).getD []) with
    | mk w sl f j wh g o l u =>
        simp only [simpleSelect, Select.mk.injEq] at h
        obtain ⟨-, -, -, -, -, -, -, hl, -⟩ := h
        simp [Select.limit, ← hl]
  refine ⟨horder, hlimit, ?_⟩
  simp only [translateRowsQuery] at hrows
  rcases htf : translateFields fuel env state (query.fields.getD []) currentTable []
    with ⟨fieldsSelect, joinRel, st1⟩ | e | _
  · simp only [htf] at hrows
    rcases hqp2 : translateQueryPart oracles env st1 currentTable query fieldsSelect
        joinRel with e | ⟨sel1, st2'⟩
    · rw [hqp2] at hrows
      exact absurd hrows (by simp)
    simp only [hqp2] at hrows
    simp only [TResult.ok.injEq, Prod.mk.injEq] at hrows
    obtain ⟨⟨-, h2⟩, -⟩ := hrows
    rw [← h2, Select.limit_setLimit]
  · rw [htf] at hrows
    exact absurd hrows (by simp)
  · rw [htf] at hrows
    exact absurd hrows (by simp)

end NdcPostgres

namespace NdcPostgres

/-- Concrete collaborators for exercising the query root: the sorting
oracle reports one ORDER BY element, the others act trivially. -/
def c10Oracles : QueryOracles :=
  { translateOrderBy := fun _ st _ _ =>
      .ok (([.mk trueExpr .Asc .NullsLast], []), st),
    translateExpression := fun _ st _ _ => .ok ((trueExpr, []), st),
    translateJoins := fun _ st _ _ => .ok ([], st),
    aggregatesTranslate := fun _ _ => .ok [] }

/-- A one-table catalog for exercising the query root. -/
def c10Env : Env :=
  { tables := [("t", { schemaName := "public", tableName := "t", columns := [] })],
    compositeTypes := [], typeRepresentations := [] }

/-- The scope of the query-root examples. -/
def c10Table : TableNameAndReference :=
  { name := "t", reference := .DBTable { name := "public" } { name := "t" } }

/-- The FROM clause of the query-root examples. -/
def c10From : From :=
  .Table (.DBTable { name := "public" } { name := "t" })
    { uniqueIndex := 0, name := "t" }

/-- A request with aggregates, an order by, limit 5 and offset 7. -/
def c10Query : NdcQuery :=
  { aggregates := some { raw := .null }, fields := none,
    orderBy := some { raw := .null }, predicate := none,
    limit := some 5, offset := some 7 }

/-- Witness for claim C10: on the concrete request with order by, limit
and offset, the aggregate branch carries neither, while the rows branch
carries the request's limit and offset. -/
theorem aggregate_query_no_order_by_no_limit_witness :
    (Select.mk [] (.SelectListValues []) (some c10From) [] trueExpr [] [] emptyLimit
      false).orderBy = [] ∧
    (Select.mk [] (.SelectListValues []) (some c10From) [] trueExpr [] [] emptyLimit
      false).limit = emptyLimit ∧
    (Select.mk [] (.SelectListValues []) (some c10From) [] trueExpr []
      [.mk trueExpr .Asc .NullsLast] { limit := some 5, offset := some 7 }
      false).limit = { limit := c10Query.limit, offset := c10Query.offset } :=
  aggregate_query_no_order_by_no_limit c10Oracles c10Env State.new c10Table c10From
    c10Query _ State.new 1 .NoFieldsWereRequested _ State.new rfl
    (by simp [translateRowsQuery, translateFields, translateFieldsList, c10Query,
      c10Env, c10Table, Env.lookupFieldsInfo, assocLookup, translateQueryPart,
      c10Oracles, simpleSelect, Select.extendJoins, Select.setWhere,
      Select.setOrderBy, Select.setFrom, Select.setLimit, translateNestedFieldJoins,
      TableInfo.fieldsInfo])

end NdcPostgres

namespace NdcPostgres

/-- Claim C1 counterexample: the sole column `id` of this table is
`IdentityAlways` — neither `Nullable`, nor `HasDefault`, nor
`IdentityByDefault` — yet an insert whose object omits it translates
successfully instead of failing with `MissingColumnInInsert("id")`: the
identity-always match arm accepts an absent column. -/
theorem insert_missing_identity_always_column_accepted :
    (translateObjectsToColumnsAndValues
        { tables := [], compositeTypes := [], typeRepresentations := [] }
        State.new
        { collectionName := "t", description := "",
          schemaName := { name := "public" }, tableName := { name := "t" },
          columns := [("id",
            { name := "id", type := .ScalarType "int4", nullable := .NonNullable,
              hasDefault := .NoDefault, isIdentity := .IdentityAlways,
              isGenerated := .NotGenerated })],
          constraint := { argumentName := "constraint", description := "" } }
        (.arr [.obj []]) =
      .ok (([], [[]]), State.new)) := rfl

/-- Claim C1 amended: a column C missing from the inserted object passes
the column check iff C is `Nullable`, `HasDefault`, `IdentityByDefault`,
`Stored`-generated, or `IdentityAlways`; otherwise the check fails with
`MissingColumnInInsert(C)`.  This holds for the experimental and the v1
check alike, and checking a one-column table is exactly the per-column
rule. -/
theorem insert_missing_column_rules (insertName name : String) (column : ColumnInfo)
    (inserted : List (ColumnName × InsertExpression)) (insertedV1 : List ColumnName)
    (hmissing : mapLookup { name := column.name } inserted = none)
    (hmissingV1 : insertedV1.contains { name := column.name } = false) :
    ((checkColumn insertName name column inserted = .ok ()) ↔
      (column.nullable = .Nullable ∨ column.hasDefault = .HasDefault ∨
       column.isIdentity = .IdentityByDefault ∨ column.isGenerated = .Stored ∨
       column.isIdentity = .IdentityAlways)) ∧
    (¬ (column.nullable = .Nullable ∨ column.hasDefault = .HasDefault ∨
        column.isIdentity = .IdentityByDefault ∨ column.isGenerated = .Stored ∨
        column.isIdentity = .IdentityAlways) →
      checkColumn insertName name column inserted =
        .error (.MissingColumnInInsert name insertName)) ∧
    ((v1CheckColumn insertName name column insertedV1 = .ok ()) ↔
      (column.nullable = .Nullable ∨ column.hasDefault = .HasDefault ∨
       column.isIdentity = .IdentityByDefault ∨ column.isGenerated = .Stored ∨
       column.isIdentity = .IdentityAlways)) ∧
    (¬ (column.nullable = .Nullable ∨ column.hasDefault = .HasDefault ∨
        column.isIdentity = .IdentityByDefault ∨ column.isGenerated = .Stored ∨
        column.isIdentity = .IdentityAlways) →
      v1CheckColumn insertName name column insertedV1 =
        .error (.MissingColumnInInsert name insertName)) ∧
    (checkColumns [(name, column)] inserted insertName =
      checkColumn insertName name column inserted) := by
    refine ⟨?_, ?_, ?_, ?_, ?_⟩
    case _ | _ | _ | _ =>
      obtain ⟨cn, cty, nl, hd, ii, ig⟩ := column
      simp only at hmissing hmissingV1
      cases nl <;> cases hd <;> cases ii <;> cases ig <;>
        simp_all [checkColumn, v1CheckColumn]
    case _ =>
      rcases h : checkColumn insertName name column inserted with e | u
      · simp [checkColumns, h]
      · cases u
        simp [checkColumns, h]

/-- The regular column of the claim C1 witness: not nullable, no default,
no identity, not generated. -/
def c1Column : ColumnInfo :=
  { name := "due", type := .ScalarType "int4", nullable := .NonNullable,
    hasDefault := .NoDefault, isIdentity := .NotIdentity,
    isGenerated := .NotGenerated }

/-- Witness for the amended claim C1: a plain non-nullable column missing
from the object makes the check fail with `MissingColumnInInsert`. -/
theorem insert_missing_column_rules_witness :
    ((checkColumn "t" "due" c1Column [] = .ok ()) ↔
      (c1Column.nullable = .Nullable ∨ c1Column.hasDefault = .HasDefault ∨
       c1Column.isIdentity = .IdentityByDefault ∨ c1Column.isGenerated = .Stored ∨
       c1Column.isIdentity = .IdentityAlways)) ∧
    (¬ (c1Column.nullable = .Nullable ∨ c1Column.hasDefault = .HasDefault ∨
        c1Column.isIdentity = .IdentityByDefault ∨ c1Column.isGenerated = .Stored ∨
        c1Column.isIdentity = .IdentityAlways) →
      checkColumn "t" "due" c1Column [] =
        .error (.MissingColumnInInsert "due" "t")) ∧
    ((v1CheckColumn "t" "due" c1Column [] = .ok ()) ↔
      (c1Column.nullable = .Nullable ∨ c1Column.hasDefault = .HasDefault ∨
       c1Column.isIdentity = .IdentityByDefault ∨ c1Column.isGenerated = .Stored ∨
       c1Column.isIdentity = .IdentityAlways)) ∧
    (¬ (c1Column.nullable = .Nullable ∨ c1Column.hasDefault = .HasDefault ∨
        c1Column.isIdentity = .IdentityByDefault ∨ c1Column.isGenerated = .Stored ∨
        c1Column.isIdentity = .IdentityAlways) →
      v1CheckColumn "t" "due" c1Column [] =
        .error (.MissingColumnInInsert "due" "t")) ∧
    (checkColumns [("due", c1Column)] [] "t" = checkColumn "t" "due" c1Column []) :=
  insert_missing_column_rules "t" "due" c1Column [] [] rfl rfl

end NdcPostgres

namespace NdcPostgres

/-- The insert mutation of the claim C2 counterexample: its sole column
`ts` is `Stored`-generated but also `Nullable`. -/
def c2Mutation : InsertMutation :=
  { collectionName := "t", description := "", schemaName := { name := "public" },
    tableName := { name := "t" },
    columns := [("ts",
      { name := "ts", type := .ScalarType "timestamp", nullable := .Nullable,
        hasDefault := .NoDefault, isIdentity := .NotIdentity,
        isGenerated := .Stored })],
    constraint := { argumentName := "constraint", description := "" } }

/-- Claim C2 counterexample: the column `ts` is `Stored`-generated, the
object supplies a non-DEFAULT value for it, and yet translation succeeds
instead of failing with `ColumnIsGenerated("ts")` — the nullable match
arm accepts the column before the generated arm is reached. -/
theorem insert_value_for_nullable_generated_column_accepted :
    (translateObjectsToColumnsAndValues
        { tables := [], compositeTypes := [], typeRepresentations := [] }
        State.new c2Mutation (.arr [.obj [("ts", .str "2020-01-01")]]) =
      .ok (([{ name := "ts" }],
            [[.Expression (.Cast (.Value (.Str "2020-01-01"))
               (ScalarTypeName.newUnqualified "timestamp"))]]), State.new)) ∧
    ((assocLookup "ts" c2Mutation.columns).map (fun c => c.isGenerated) =
      some .Stored) := ⟨rfl, rfl⟩

/-- Claim C2 amended: a non-DEFAULT value supplied for a
`Stored`-generated column fails with `ColumnIsGenerated`, and one
supplied for an `IdentityAlways`, non-generated column fails with
`ColumnIsIdentityAlways` — provided the column is not `Nullable`, has no
default and is not `IdentityByDefault`, since those match arms accept the
column first.  This holds for the experimental and the v1 check alike. -/
theorem insert_generated_identity_rules (insertName name : String)
    (column : ColumnInfo) (inserted : List (ColumnName × InsertExpression))
    (insertedV1 : List ColumnName) (e : Expression)
    (hval : mapLookup { name := column.name } inserted = some (.Expression e))
    (hvalV1 : insertedV1.contains { name := column.name } = true)
    (hnn : column.nullable = .NonNullable) (hnd : column.hasDefault = .NoDefault)
    (hni : column.isIdentity ≠ .IdentityByDefault) :
    (column.isGenerated = .Stored →
      checkColumn insertName name column inserted =
        .error (.ColumnIsGenerated name) ∧
      v1CheckColumn insertName name column insertedV1 =
        .error (.ColumnIsGenerated name)) ∧
    (column.isIdentity = .IdentityAlways → column.isGenerated = .NotGenerated →
      checkColumn insertName name column inserted =
        .error (.ColumnIsIdentityAlways name) ∧
      v1CheckColumn insertName name column insertedV1 =
        .error (.ColumnIsIdentityAlways name)) := by
  obtain ⟨cn, cty, nl, hd, ii, ig⟩ := column
  simp only at hval hvalV1 hnn hnd hni
  subst hnn hnd
  cases ii <;> cases ig <;> simp_all [checkColumn, v1CheckColumn]

/-- Witness for the amended claim C2: the non-nullable `Stored` column
`ts`, supplied with a value, is rejected with `ColumnIsGenerated`. -/
theorem insert_generated_identity_rules_witness :
    (ColumnInfo.isGenerated
        { name := "ts", type := .ScalarType "timestamp",
          nullable := .NonNullable, hasDefault := .NoDefault,
          isIdentity := .NotIdentity, isGenerated := .Stored } = .Stored →
      checkColumn "t" "ts"
        { name := "ts", type := .ScalarType "timestamp",
          nullable := .NonNullable, hasDefault := .NoDefault,
          isIdentity := .NotIdentity, isGenerated := .Stored }
        [({ name := "ts" }, .Expression trueExpr)] =
        .error (.ColumnIsGenerated "ts") ∧
      v1CheckColumn "t" "ts"
        { name := "ts", type := .ScalarType "timestamp",
          nullable := .NonNullable, hasDefault := .NoDefault,
          isIdentity := .NotIdentity, isGenerated := .Stored }
        [{ name := "ts" }] =
        .error (.ColumnIsGenerated "ts")) ∧
    (ColumnInfo.isIdentity
        { name := "ts", type := .ScalarType "timestamp",
          nullable := .NonNullable, hasDefault := .NoDefault,
          isIdentity := .NotIdentity, isGenerated := .Stored } = .IdentityAlways →
      ColumnInfo.isGenerated
        { name := "ts", type := .ScalarType "timestamp",
          nullable := .NonNullable, hasDefault := .NoDefault,
          isIdentity := .NotIdentity, isGenerated := .Stored } = .NotGenerated →
      checkColumn "t" "ts"
        { name := "ts", type := .ScalarType "timestamp",
          nullable := .NonNullable, hasDefault := .NoDefault,
          isIdentity := .NotIdentity, isGenerated := .Stored }
        [({ name := "ts" }, .Expression trueExpr)] =
        .error (.ColumnIsIdentityAlways "ts") ∧
      v1CheckColumn "t" "ts"
        { name := "ts", type := .ScalarType "timestamp",
          nullable := .NonNullable, hasDefault := .NoDefault,
          isIdentity := .NotIdentity, isGenerated := .Stored }
        [{ name := "ts" }] =
        .error (.ColumnIsIdentityAlways "ts")) :=
  insert_generated_identity_rules "t" "ts"
    { name := "ts", type := .ScalarType "timestamp", nullable := .NonNullable,
      hasDefault := .NoDefault, isIdentity := .NotIdentity, isGenerated := .Stored }
    [({ name := "ts" }, .Expression trueExpr)] [{ name := "ts" }] trueExpr
    rfl rfl rfl rfl (by decide)

end NdcPostgres

namespace NdcPostgres

/-! ## Sorted-map lemmas for the insert DEFAULT-backfill (claim C3) -/

/-- The columns (by physical name) an insert object supplies, resolved
through the table's column map exactly as the translator resolves them;
the spec-side reading of "the column names appearing in the object". -/
def objectInsertColumns (mutation : InsertMutation) : Json → List ColumnName
  | .obj fields => fields.filterMap
      (fun p => (assocLookup p.1 mutation.columns).map (fun ci => { name := ci.name }))
  | _ => []

/-- The `BTreeMap` representation invariant: keys strictly ascending. -/
def MapSorted {α : Type} (m : List (ColumnName × α)) : Prop :=
  m.Pairwise (fun a b => a.1.name < b.1.name)

/-- The `BTreeSet` representation invariant: elements strictly ascending. -/
def SetSorted (s : List ColumnName) : Prop :=
  s.Pairwise (fun a b => a.name < b.name)

theorem ColumnName.eq_iff (a b : ColumnName) : a = b ↔ a.name = b.name := by
  cases a; cases b; simp

theorem mem_mapKeys_mapInsert {α : Type} (k c : ColumnName) (v : α)
    (m : List (ColumnName × α)) :
    c ∈ mapKeys (mapInsert k v m) ↔ c = k ∨ c ∈ mapKeys m := by
  induction m with
  | nil => simp [mapInsert, mapKeys]
  | cons p rest ih =>
      obtain ⟨k1, v1⟩ := p
      simp only [mapInsert]
      rcases lt_trichotomy k.name k1.name with hlt | heq | hgt
      · rw [if_pos hlt]
        simp [mapKeys]
      · have hk : k = k1 := (ColumnName.eq_iff k k1).mpr heq
        rw [if_neg (by rw [heq]; exact lt_irrefl _), if_pos heq]
        subst hk
        simp [mapKeys]
      · rw [if_neg (not_lt_of_lt hgt), if_neg (ne_of_gt hgt)]
        simp only [mapKeys, List.map_cons, List.mem_cons] at ih ⊢
        rw [show List.map Prod.fst (mapInsert k v rest) = mapKeys (mapInsert k v rest)
          from rfl] at ih ⊢
        rw [ih]
        tauto

theorem mapLookup_mapInsert_self {α : Type} (k : ColumnName) (v : α)
    (m : List (ColumnName × α)) : mapLookup k (mapInsert k v m) = some v := by
  induction m with
  | nil => simp [mapInsert, mapLookup]
  | cons p rest ih =>
      obtain ⟨k1, v1⟩ := p
      simp only [mapInsert]
      rcases lt_trichotomy k.name k1.name with hlt | heq | hgt
      · rw [if_pos hlt]; simp [mapLookup]
      · rw [if_neg (by rw [heq]; exact lt_irrefl _), if_pos heq]
        simp [mapLookup]
      · rw [if_neg (not_lt_of_lt hgt), if_neg (ne_of_gt hgt)]
        have hk : k1 ≠ k := fun h => (ne_of_gt hgt) (congrArg ColumnName.name h).symm
        simp [mapLookup, hk, ih]

theorem mapLookup_mapInsert_ne {α : Type} (k c : ColumnName) (v : α)
    (m : List (ColumnName × α)) (h : c ≠ k) :
    mapLookup c (mapInsert k v m) = mapLookup c m := by
  have hk : k ≠ c := fun hk => h hk.symm
  induction m with
  | nil => simp [mapInsert, mapLookup, hk]
  | cons p rest ih =>
      obtain ⟨k1, v1⟩ := p
      simp only [mapInsert]
      rcases lt_trichotomy k.name k1.name with hlt | heq | hgt
      · rw [if_pos hlt]; simp [mapLookup, hk]
      · have hkk : k = k1 := (ColumnName.eq_iff k k1).mpr heq
        rw [if_neg (by rw [heq]; exact lt_irrefl _), if_pos heq]
        subst hkk
        simp [mapLookup, hk]
      · rw [if_neg (not_lt_of_lt hgt), if_neg (ne_of_gt hgt)]
        simp [mapLookup, ih]

theorem mapInsert_sorted {α : Type} (k : ColumnName) (v : α)
    (m : List (ColumnName × α)) (h : MapSorted m) : MapSorted (mapInsert k v m) := by
  induction m with
  | nil => simp [mapInsert, MapSorted]
  | cons p rest ih =>
      obtain ⟨k1, v1⟩ := p
      rw [MapSorted, List.pairwise_cons] at h
      obtain ⟨hhead, htail⟩ := h
      simp only [mapInsert]
      rcases lt_trichotomy k.name k1.name with hlt | heq | hgt
      · rw [if_pos hlt, MapSorted, List.pairwise_cons]
        refine ⟨?_, List.pairwise_cons.mpr ⟨hhead, htail⟩⟩
        intro p hp
        rcases List.mem_cons.mp hp with hp | hp
        · rw [hp]; exact hlt
        · exact lt_trans hlt (hhead p hp)
      · rw [if_neg (by rw [heq]; exact lt_irrefl _), if_pos heq,
          MapSorted, List.pairwise_cons]
        refine ⟨?_, htail⟩
        intro p hp
        rw [heq]
        exact hhead p hp
      · rw [if_neg (not_lt_of_lt hgt), if_neg (ne_of_gt hgt),
          MapSorted, List.pairwise_cons]
        refine ⟨?_, ih htail⟩
        intro p hp
        have hp1 : p.1 ∈ mapKeys (mapInsert k v rest) :=
          List.mem_map_of_mem Prod.fst hp
        rcases (mem_mapKeys_mapInsert k p.1 v rest).mp hp1 with hc | hc
        · rw [hc]; exact hgt
        · obtain ⟨q, hq, hq1⟩ := List.mem_map.mp hc
          rw [← hq1]
          exact hhead q hq

theorem mem_setInsert (k c : ColumnName) (s : List ColumnName) :
    c ∈ setInsert k s ↔ c = k ∨ c ∈ s := by
  induction s with
  | nil => simp [setInsert]
  | cons k1 rest ih =>
      simp only [setInsert]
      rcases lt_trichotomy k.name k1.name with hlt | heq | hgt
      · rw [if_pos hlt]; simp
      · have hk : k = k1 := (ColumnName.eq_iff k k1).mpr heq
        rw [if_neg (by rw [heq]; exact lt_irrefl _), if_pos heq]
        subst hk
        simp
      · rw [if_neg (not_lt_of_lt hgt), if_neg (ne_of_gt hgt)]
        simp only [List.mem_cons, ih]
        tauto

theorem setInsert_sorted (k : ColumnName) (s : List ColumnName) (h : SetSorted s) :
    SetSorted (setInsert k s) := by
  induction s with
  | nil => simp [setInsert, SetSorted]
  | cons k1 rest ih =>
      rw [SetSorted, List.pairwise_cons] at h
      obtain ⟨hhead, htail⟩ := h
      simp only [setInsert]
      rcases lt_trichotomy k.name k1.name with hlt | heq | hgt
      · rw [if_pos hlt, SetSorted, List.pairwise_cons]
        refine ⟨?_, List.pairwise_cons.mpr ⟨hhead, htail⟩⟩
        intro p hp
        rcases List.mem_cons.mp hp with hp | hp
        · rw [hp]; exact hlt
        · exact lt_trans hlt (hhead p hp)
      · rw [if_neg (by rw [heq]; exact lt_irrefl _), if_pos heq,
          SetSorted, List.pairwise_cons]
        exact ⟨hhead, htail⟩
      · rw [if_neg (not_lt_of_lt hgt), if_neg (ne_of_gt hgt),
          SetSorted, List.pairwise_cons]
        refine ⟨?_, ih htail⟩
        intro p hp
        rcases (mem_setInsert k p rest).mp hp with hc | hc
        · rw [hc]; exact hgt
        · exact hhead p hc

theorem mem_setUnion (a b : List ColumnName) (c : ColumnName) :
    c ∈ setUnion a b ↔ c ∈ a ∨ c ∈ b := by
  induction b generalizing a with
  | nil => simp [setUnion]
  | cons k rest ih =>
      simp only [setUnion, List.foldl_cons]
      rw [show List.foldl (fun acc k => setInsert k acc) (setInsert k a) rest =
        setUnion (setInsert k a) rest from rfl, ih, mem_setInsert]
      simp
      tauto

theorem setUnion_sorted (a b : List ColumnName) (h : SetSorted a) :
    SetSorted (setUnion a b) := by
  induction b generalizing a with
  | nil => exact h
  | cons k rest ih =>
      simp only [setUnion, List.foldl_cons]
      exact ih (setInsert k a) (setInsert_sorted k a h)

theorem mem_mapKeys_iff_lookup {α : Type} (m : List (ColumnName × α)) (c : ColumnName) :
    c ∈ mapKeys m ↔ (mapLookup c m).isSome := by
  induction m with
  | nil => simp [mapKeys, mapLookup]
  | cons p rest ih =>
      obtain ⟨k, v⟩ := p
      by_cases hk : k = c
      · subst hk
        simp [mapKeys, mapLookup]
      · have hck : c ≠ k := fun h => hk h.symm
        rw [mapKeys, List.map_cons, List.mem_cons,
          show List.map Prod.fst rest = mapKeys rest from rfl,
          mapLookup, if_neg hk]
        simp [hck, ih]

theorem backfill_step_lookup (k c : ColumnName)
    (m : List (ColumnName × InsertExpression)) :
    mapLookup c (if mapContainsKey k m then m else mapInsert k .Default m) =
      if c = k then
        (match mapLookup c m with
         | some v => some v
         | none => some .Default)
      else mapLookup c m := by
  by_cases hk : mapContainsKey k m
  · rw [if_pos hk]
    by_cases hck : c = k
    · subst hck
      rcases h : mapLookup c m with _ | v
      · rw [mapContainsKey, h] at hk
        simp at hk
      · simp [h]
    · rw [if_neg hck]
  · rw [if_neg hk]
    by_cases hck : c = k
    · subst hck
      rcases h : mapLookup c m with _ | v
      · simp [mapLookup_mapInsert_self, h]
      · rw [mapContainsKey, h] at hk
        simp at hk
    · rw [if_neg hck, mapLookup_mapInsert_ne _ _ _ _ hck]

theorem backfill_step_sorted (k : ColumnName)
    (m : List (ColumnName × InsertExpression)) (h : MapSorted m) :
    MapSorted (if mapContainsKey k m then m else mapInsert k .Default m) := by
  by_cases hk : mapContainsKey k m
  · rwa [if_pos hk]
  · rw [if_neg hk]; exact mapInsert_sorted _ _ _ h

theorem backfillDefaults_lookup (u : List ColumnName) (c : ColumnName) :
    ∀ (m : List (ColumnName × InsertExpression)),
      mapLookup c (backfillDefaults u m) =
        match mapLookup c m with
        | some v => some v
        | none => if c ∈ u then some .Default else none := by
  induction u with
  | nil =>
      intro m
      rcases h : mapLookup c m with _ | v <;> simp [backfillDefaults, h]
  | cons k rest ih =>
      intro m
      rw [backfillDefaults, List.foldl_cons,
        show List.foldl (fun acc columnName => if mapContainsKey columnName acc then acc
          else mapInsert columnName .Default acc)
          (if mapContainsKey k m then m else mapInsert k .Default m) rest =
        backfillDefaults rest (if mapContainsKey k m then m
          else mapInsert k .Default m) from rfl, ih, backfill_step_lookup]
      by_cases hck : c = k
      · subst hck
        rcases h : mapLookup c m with _ | v <;> simp [h]
      · rw [if_neg hck]
        rcases h : mapLookup c m with _ | v
        · simp [List.mem_cons, hck]
        · rfl

theorem backfillDefaults_sorted (u : List ColumnName) :
    ∀ (m : List (ColumnName × InsertExpression)), MapSorted m →
      MapSorted (backfillDefaults u m) := by
  induction u with
  | nil => intro m h; exact h
  | cons k rest ih =>
      intro m h
      rw [backfillDefaults, List.foldl_cons]
      exact ih _ (backfill_step_sorted k m h)

theorem setSorted_eq_of_mem_iff :
    ∀ (s1 s2 : List ColumnName), SetSorted s1 → SetSorted s2 →
      (∀ c, c ∈ s1 ↔ c ∈ s2) → s1 = s2 := by
  intro s1
  induction s1 with
  | nil =>
      intro s2 _ _ hmem
      cases s2 with
      | nil => rfl
      | cons b rest => exact absurd ((hmem b).mpr (List.mem_cons_self b rest)) (by simp)
  | cons a s1' ih =>
      intro s2 h1 h2 hmem
      cases s2 with
      | nil => exact absurd ((hmem a).mp (List.mem_cons_self a s1')) (by simp)
      | cons b s2' =>
          rw [SetSorted, List.pairwise_cons] at h1 h2
          obtain ⟨ha, h1'⟩ := h1
          obtain ⟨hb, h2'⟩ := h2
          have hab : a = b := by
            rcases List.mem_cons.mp ((hmem a).mp (List.mem_cons_self a s1')) with
              h | h
            · exact h
            · rcases List.mem_cons.mp ((hmem b).mpr (List.mem_cons_self b s2')) with
                h' | h'
              · exact h'.symm
              · exact absurd (lt_trans (hb a h) (ha b h')) (lt_irrefl _)
          subst hab
          have htails : ∀ c, c ∈ s1' ↔ c ∈ s2' := by
            intro c
            constructor
            · intro hc
              rcases List.mem_cons.mp ((hmem c).mp (List.mem_cons_of_mem a hc)) with
                h | h
              · subst h
                exact absurd (ha c hc) (lt_irrefl _)
              · exact h
            · intro hc
              rcases List.mem_cons.mp ((hmem c).mpr (List.mem_cons_of_mem a hc)) with
                h | h
              · subst h
                exact absurd (hb c hc) (lt_irrefl _)
              · exact h
          rw [ih s2' h1' h2' htails]

theorem mapLookup_of_get? {α : Type} :
    ∀ (m : List (ColumnName × α)) (j : Nat) (k : ColumnName) (v : α),
      MapSorted m → m.get? j = some (k, v) → mapLookup k m = some v := by
  intro m
  induction m with
  | nil => intro j k v _ h; simp at h
  | cons p rest ih =>
      intro j k v hs h
      obtain ⟨k0, v0⟩ := p
      rw [MapSorted, List.pairwise_cons] at hs
      obtain ⟨hhead, htail⟩ := hs
      cases j with
      | zero =>
          simp only [List.get?] at h
          injection h with h
          injection h with h1 h2
          subst h1; subst h2
          simp [mapLookup]
      | succ j =>
          simp only [List.get?] at h
          have hk : (k, v) ∈ rest := List.get?_mem h
          have hne : k0 ≠ k := by
            intro heq
            have := hhead (k, v) hk
            rw [heq] at this
            exact absurd this (lt_irrefl _)
          rw [mapLookup, if_neg hne]
          exact ih j k v htail h


theorem objectInsertColumns_cons (mutation : InsertMutation) (name : String)
    (value : Json) (rest : List (String × Json)) :
    objectInsertColumns mutation (.obj ((name, value) :: rest)) =
      match assocLookup name mutation.columns with
      | some ci => { name := ci.name } :: objectInsertColumns mutation (.obj rest)
      | none => objectInsertColumns mutation (.obj rest) := by
  rcases hl : assocLookup name mutation.columns with _ | ci <;>
    simp [objectInsertColumns, List.filterMap_cons, hl]

theorem translateObjectFields_spec (mutation : InsertMutation)
    (fields : List (String × Json)) :
    ∀ (state : State) (acc m : List (ColumnName × InsertExpression)) (st' : State),
      translateObjectFields mutation state acc fields = .ok (m, st') →
      (MapSorted acc → MapSorted m) ∧
      (∀ c, c ∈ mapKeys m ↔ (c ∈ mapKeys acc ∨
        c ∈ objectInsertColumns mutation (.obj fields))) ∧
      (∀ c v, mapLookup c m = some v →
        mapLookup c acc = some v ∨ ∃ e, v = .Expression e) := by
  induction fields with
  | nil =>
      intro state acc m st' h
      simp only [translateObjectFields, Except.ok.injEq, Prod.mk.injEq] at h
      obtain ⟨h1, -⟩ := h
      subst h1
      refine ⟨fun hacc => hacc, ?_, ?_⟩
      · intro c; simp [objectInsertColumns]
      · intro c v hv; exact .inl hv
  | cons p rest ih =>
      obtain ⟨name, value⟩ := p
      intro state acc m st' h
      simp only [translateObjectFields] at h
      rcases hl : assocLookup name mutation.columns with _ | ci
      · rw [hl] at h
        exact absurd h (by simp)
      simp only [hl] at h
      rcases htj : translateJsonValue state value ci.type with e | ⟨expr, st1⟩
      · rw [htj] at h
        exact absurd h (by simp)
      simp only [htj] at h
      obtain ⟨hs, hk, hv⟩ :=
        ih st1 (mapInsert { name := ci.name } (.Expression expr) acc) m st' h
      refine ⟨?_, ?_, ?_⟩
      · intro hacc
        exact hs (mapInsert_sorted _ _ _ hacc)
      · intro c
        rw [hk c, mem_mapKeys_mapInsert, objectInsertColumns_cons, hl]
        simp only [List.mem_cons]
        tauto
      · intro c v hv1
        rcases hv c v hv1 with hacc1 | he
        · by_cases hc : c = { name := ci.name }
          · subst hc
            rw [mapLookup_mapInsert_self] at hacc1
            injection hacc1 with hacc1
            exact .inr ⟨expr, hacc1.symm⟩
          · rw [mapLookup_mapInsert_ne _ _ _ _ hc] at hacc1
            exact .inl hacc1
        · exact .inr he

theorem translateObjectsList_spec (env : Env) (mutation : InsertMutation)
    (objects : List Json) :
    ∀ (state : State) (maps : List (List (ColumnName × InsertExpression)))
      (st' : State),
      translateObjectsList env mutation state objects = .ok (maps, st') →
      List.Forall₂
        (fun (object : Json) (m : List (ColumnName × InsertExpression)) =>
          MapSorted m ∧
          (∀ c, c ∈ mapKeys m ↔ c ∈ objectInsertColumns mutation object) ∧
          (∀ c v, mapLookup c m = some v → ∃ e, v = .Expression e))
        objects maps := by
  induction objects with
  | nil =>
      intro state maps st' h
      simp only [translateObjectsList, Except.ok.injEq, Prod.mk.injEq] at h
      obtain ⟨h1, -⟩ := h
      subst h1
      exact List.Forall₂.nil
  | cons object rest ih =>
      intro state maps st' h
      simp only [translateObjectsList] at h
      rcases ho : translateObjectIntoColumnsAndValues env state mutation object with
        e | ⟨m1, st1⟩
      · rw [ho] at h
        exact absurd h (by simp)
      simp only [ho] at h
      rcases hr : translateObjectsList env mutation st1 rest with e | ⟨others, st2⟩
      · rw [hr] at h
        exact absurd h (by simp)
      simp only [hr] at h
      simp only [Except.ok.injEq, Prod.mk.injEq] at h
      obtain ⟨h1, -⟩ := h
      subst h1
      refine List.Forall₂.cons ?_ (ih st1 others st2 hr)
      rcases object with _ | b | n | str | elements | fields
      case obj =>
        simp only [translateObjectIntoColumnsAndValues] at ho
        obtain ⟨hs, hk, hv⟩ := translateObjectFields_spec mutation fields state [] m1 st1 ho
        refine ⟨hs (by simp [MapSorted]), ?_, ?_⟩
        · intro c
          rw [hk c]
          simp [mapKeys]
        · intro c v hv1
          rcases hv c v hv1 with h0 | he
          · simp [mapLookup] at h0
          · exact he
      all_goals
        exact absurd ho (by simp [translateObjectIntoColumnsAndValues])

theorem backfillAndCheck_eq (mutation : InsertMutation) (u : List ColumnName) :
    ∀ (maps filled : List (List (ColumnName × InsertExpression))),
      backfillAndCheck mutation u maps = .ok filled →
      filled = maps.map (backfillDefaults u) := by
  intro maps
  induction maps with
  | nil =>
      intro filled h
      simp only [backfillAndCheck, Except.ok.injEq] at h
      subst h
      rfl
  | cons m rest ih =>
      intro filled h
      simp only [backfillAndCheck] at h
      rcases hc : checkColumns mutation.columns (backfillDefaults u m)
          mutation.collectionName with e | u1
      · rw [hc] at h
        exact absurd h (by simp)
      simp only [hc] at h
      rcases hr : backfillAndCheck mutation u rest with e | others
      · rw [hr] at h
        exact absurd h (by simp)
      simp only [hr] at h
      simp only [Except.ok.injEq] at h
      subst h
      rw [List.map_cons, ih others hr]


theorem mapKeys_sorted {α : Type} (m : List (ColumnName × α)) (h : MapSorted m) :
    SetSorted (mapKeys m) := by
  rw [SetSorted, mapKeys, List.pairwise_map]
  exact h

theorem unionFold_mem (maps : List (List (ColumnName × InsertExpression))) :
    ∀ (acc : List ColumnName) (c : ColumnName),
      c ∈ maps.foldl (fun acc m => setUnion acc (mapKeys m)) acc ↔
        c ∈ acc ∨ ∃ m ∈ maps, c ∈ mapKeys m := by
  induction maps with
  | nil => intro acc c; simp
  | cons m rest ih =>
      intro acc c
      rw [List.foldl_cons, ih, mem_setUnion]
      simp only [List.mem_cons]
      constructor
      · rintro ((h | h) | h)
        · exact .inl h
        · exact .inr ⟨m, .inl rfl, h⟩
        · obtain ⟨m1, hm1, hc⟩ := h
          exact .inr ⟨m1, .inr hm1, hc⟩
      · rintro (h | ⟨m1, (rfl | hm1), hc⟩)
        · exact .inl (.inl h)
        · exact .inl (.inr hc)
        · exact .inr ⟨m1, hm1, hc⟩

theorem unionFold_sorted (maps : List (List (ColumnName × InsertExpression))) :
    ∀ (acc : List ColumnName), SetSorted acc →
      SetSorted (maps.foldl (fun acc m => setUnion acc (mapKeys m)) acc) := by
  induction maps with
  | nil => intro acc h; exact h
  | cons m rest ih =>
      intro acc h
      rw [List.foldl_cons]
      exact ih _ (setUnion_sorted _ _ h)

theorem forall₂_get?_rel {α β : Type} {R : α → β → Prop} :
    ∀ {l1 : List α} {l2 : List β}, List.Forall₂ R l1 l2 →
      ∀ (i : Nat) (a : α) (b : β), l1.get? i = some a → l2.get? i = some b → R a b := by
  intro l1 l2 h
  induction h with
  | nil => intro i a b ha _; simp at ha
  | @cons a0 b0 l1' l2' hr hrest ih =>
      intro i a b ha hb
      cases i with
      | zero =>
          simp only [List.get?] at ha hb
          injection ha with ha
          injection hb with hb
          subst ha; subst hb
          exact hr
      | succ i => exact ih i a b ha hb

theorem forall₂_exists_iff {α β : Type} {P : α → Prop} {Q : β → Prop}
    {R : α → β → Prop} (hPQ : ∀ a b, R a b → (P a ↔ Q b)) :
    ∀ {l1 : List α} {l2 : List β}, List.Forall₂ R l1 l2 →
      ((∃ a ∈ l1, P a) ↔ ∃ b ∈ l2, Q b) := by
  intro l1 l2 h
  induction h with
  | nil => simp
  | @cons a0 b0 l1' l2' hr hrest ih =>
      simp only [List.mem_cons]
      constructor
      · rintro ⟨a, (rfl | ha), hp⟩
        · exact ⟨b0, .inl rfl, (hPQ a b0 hr).mp hp⟩
        · obtain ⟨b, hb, hq⟩ := ih.mp ⟨a, ha, hp⟩
          exact ⟨b, .inr hb, hq⟩
      · rintro ⟨b, (rfl | hb), hq⟩
        · exact ⟨a0, .inl rfl, (hPQ a0 b hr).mpr hq⟩
        · obtain ⟨a, ha, hp⟩ := ih.mpr ⟨b, hb, hq⟩
          exact ⟨a, .inr ha, hp⟩


theorem backfill_keys_eq (u : List ColumnName)
    (m : List (ColumnName × InsertExpression)) (hm : MapSorted m) (hu : SetSorted u)
    (hsub : ∀ c, c ∈ mapKeys m → c ∈ u) :
    mapKeys (backfillDefaults u m) = u := by
  refine setSorted_eq_of_mem_iff _ _
    (mapKeys_sorted _ (backfillDefaults_sorted u m hm)) hu ?_
  intro c
  rw [mem_mapKeys_iff_lookup, backfillDefaults_lookup]
  rcases h : mapLookup c m with _ | v
  · by_cases hc : c ∈ u <;> simp [hc]
  · have hcm : c ∈ mapKeys m := (mem_mapKeys_iff_lookup m c).mpr (by simp [h])
    simp [hsub c hcm]

/-- Claim C3: on a successful experimental insert translation, the column
list is exactly the union of the column names supplied by any of the
`_objects` entries — so a table column appearing in no object appears in
neither the column list nor any row — every row has one value per listed
column, and a row's value is `DEFAULT` at exactly the positions of
columns its source object does not supply. -/
theorem insert_objects_union_and_default_backfill
    (env : Env) (state : State) (mutation : InsertMutation) (objects : List Json)
    (columns : List ColumnName) (values : List (List InsertExpression)) (st' : State)
    (h : translateObjectsToColumnsAndValues env state mutation (.arr objects) =
      .ok ((columns, values), st')) :
    (∀ c, c ∈ columns ↔ ∃ object ∈ objects, c ∈ objectInsertColumns mutation object) ∧
    values.length = objects.length ∧
    (∀ row ∈ values, row.length = columns.length) ∧
    (∀ (i : Nat) (object : Json) (row : List InsertExpression) (j : Nat)
        (c : ColumnName),
      objects.get? i = some object → values.get? i = some row →
      columns.get? j = some c →
      (row.get? j = some .Default ↔ c ∉ objectInsertColumns mutation object)) := by
  simp only [translateObjectsToColumnsAndValues] at h
  rcases hol : translateObjectsList env mutation state objects with e | ⟨maps, st1⟩
  · rw [hol] at h
    exact absurd h (by simp)
  simp only [hol] at h
  rcases hbc : backfillAndCheck mutation
      (maps.foldl (fun acc m => setUnion acc (mapKeys m)) []) maps with e | filled
  · rw [hbc] at h
    exact absurd h (by simp)
  simp only [hbc] at h
  simp only [Except.ok.injEq, Prod.mk.injEq] at h
  obtain ⟨⟨hcols, hvals⟩, -⟩ := h
  have hF := translateObjectsList_spec env mutation objects state maps st1 hol
  have hfilled := backfillAndCheck_eq mutation _ maps filled hbc
  have humem : ∀ c, c ∈ maps.foldl (fun acc m => setUnion acc (mapKeys m)) [] ↔
      ∃ m ∈ maps, c ∈ mapKeys m := by
    intro c
    rw [unionFold_mem maps [] c]
    simp
  have husorted : SetSorted (maps.foldl (fun acc m => setUnion acc (mapKeys m)) []) :=
    unionFold_sorted maps [] (by simp [SetSorted])
  subst hcols
  subst hvals
  subst hfilled
  refine ⟨?_, ?_, ?_, ?_⟩
  · intro c
    rw [humem c]
    exact (forall₂_exists_iff (fun o m hP => (hP.2.1 c).symm) hF).symm
  · rw [List.length_map, List.length_map]
    exact hF.length_eq.symm
  · intro row hrow
    rw [List.mem_map] at hrow
    obtain ⟨mf, hmf, hrow⟩ := hrow
    rw [List.mem_map] at hmf
    obtain ⟨m, hm, hmf⟩ := hmf
    have hmprops : MapSorted m := by
      obtain ⟨i, hi⟩ := List.get_of_mem hm
      have hobj : ∃ o, objects.get? i.1 = some o := by
        have hlen := hF.length_eq
        rcases ho : objects.get? i.1 with _ | o
        · rw [List.get?_eq_none] at ho
          have := i.2
          omega
        · exact ⟨o, rfl⟩
      obtain ⟨o, ho⟩ := hobj
      have hmget : maps.get? i.1 = some m := by
        rw [List.get?_eq_get i.2, hi]
      exact (forall₂_get?_rel hF i.1 o m ho hmget).1
    have hsub : ∀ c, c ∈ mapKeys m →
        c ∈ maps.foldl (fun acc m => setUnion acc (mapKeys m)) [] := by
      intro c hc
      exact (humem c).mpr ⟨m, hm, hc⟩
    have hkeq := backfill_keys_eq _ m hmprops husorted hsub
    rw [← hrow, ← hmf, mapValues, List.length_map]
    have hlen2 : (backfillDefaults
        (maps.foldl (fun acc m => setUnion acc (mapKeys m)) []) m).length =
        (mapKeys (backfillDefaults
          (maps.foldl (fun acc m => setUnion acc (mapKeys m)) []) m)).length := by
      rw [mapKeys, List.length_map]
    rw [hlen2, hkeq]
  · intro i object row j c hoi hri hcj
    have hri1 : ∃ mf, (maps.map (backfillDefaults
        (maps.foldl (fun acc m => setUnion acc (mapKeys m)) []))).get? i = some mf ∧
        mapValues mf = row := by
      rw [List.get?_map] at hri
      rcases hmf : (maps.map (backfillDefaults
          (maps.foldl (fun acc m => setUnion acc (mapKeys m)) []))).get? i with _ | mf
      · rw [hmf] at hri
        exact absurd hri (by simp)
      · rw [hmf] at hri
        injection hri with hri
        exact ⟨mf, rfl, hri⟩
    obtain ⟨mf, hmfget, hrow⟩ := hri1
    have hm1 : ∃ m, maps.get? i = some m ∧ backfillDefaults
        (maps.foldl (fun acc m => setUnion acc (mapKeys m)) []) m = mf := by
      rw [List.get?_map] at hmfget
      rcases hmg : maps.get? i with _ | m
      · rw [hmg] at hmfget
        exact absurd hmfget (by simp)
      · rw [hmg] at hmfget
        injection hmfget with hmfget
        exact ⟨m, rfl, hmfget⟩
    obtain ⟨m, hmget, hmf⟩ := hm1
    obtain ⟨hmsorted, hmkeys, hmexpr⟩ := forall₂_get?_rel hF i object m hoi hmget
    have hsub : ∀ c, c ∈ mapKeys m →
        c ∈ maps.foldl (fun acc m => setUnion acc (mapKeys m)) [] := by
      intro c hc
      exact (humem c).mpr ⟨m, List.get?_mem hmget, hc⟩
    have hkeq : mapKeys mf = maps.foldl (fun acc m => setUnion acc (mapKeys m)) [] := by
      rw [← hmf]
      exact backfill_keys_eq _ m hmsorted husorted hsub
    rcases hentry : mf.get? j with _ | p
    · rw [List.get?_eq_none] at hentry
      have hjlt : j < (maps.foldl (fun acc m => setUnion acc (mapKeys m)) []).length := by
        by_contra hge
        rw [List.get?_eq_none.mpr (Nat.le_of_not_lt hge)] at hcj
        exact Option.noConfusion hcj
      rw [← hkeq, mapKeys, List.length_map] at hjlt
      omega
    have hp1 : p.1 = c := by
      have hj2 : (mapKeys mf).get? j = some c := by rw [hkeq]; exact hcj
      rw [mapKeys, List.get?_map, hentry] at hj2
      injection hj2
    have hrowj : row.get? j = some p.2 := by
      rw [← hrow, mapValues, List.get?_map, hentry]
      rfl
    have hlookup : mapLookup c mf = some p.2 := by
      have hmfsorted : MapSorted mf := by
        rw [← hmf]
        exact backfillDefaults_sorted _ m hmsorted
      refine mapLookup_of_get? mf j c p.2 hmfsorted ?_
      rw [hentry, ← hp1]
    have hlk := backfillDefaults_lookup
      (maps.foldl (fun acc m => setUnion acc (mapKeys m)) []) c m
    rw [hmf] at hlk
    rw [hlookup] at hlk
    rw [hrowj]
    by_cases hco : c ∈ objectInsertColumns mutation object
    · have hckeys : c ∈ mapKeys m := (hmkeys c).mpr hco
      rw [mem_mapKeys_iff_lookup] at hckeys
      rcases hlm : mapLookup c m with _ | w
      · rw [hlm] at hckeys
        simp at hckeys
      rw [hlm] at hlk
      obtain ⟨e1, he1⟩ := hmexpr c w hlm
      simp only at hlk
      injection hlk with hlk
      rw [hlk, he1]
      simp [hco]
    · have hckeys : c ∉ mapKeys m := fun hc => hco ((hmkeys c).mp hc)
      rw [mem_mapKeys_iff_lookup] at hckeys
      rcases hlm : mapLookup c m with _ | w
      · rw [hlm] at hlk
        have hcu : c ∈ maps.foldl (fun acc m => setUnion acc (mapKeys m)) [] :=
          List.get?_mem hcj
        rw [if_pos hcu] at hlk
        injection hlk with hlk
        rw [hlk]
        simp [hco]
      · rw [hlm] at hckeys
        simp at hckeys


/-- The insert mutation of the claim C3 witness: a single nullable text
column `note`. -/
def c3Mutation : InsertMutation :=
  { collectionName := "t", description := "", schemaName := { name := "public" },
    tableName := { name := "t" },
    columns :=
      [("note",
        { name := "note", type := .ScalarType "text", nullable := .Nullable,
          hasDefault := .NoDefault, isIdentity := .NotIdentity,
          isGenerated := .NotGenerated })],
    constraint := { argumentName := "constraint", description := "" } }

/-- The `_objects` array of the claim C3 witness:
`[{note: "a"}, {}]`. -/
def c3Objects : List Json :=
  [.obj [("note", .str "a")], .obj []]

/-- The translated rows of the claim C3 witness: `('a')` and `(DEFAULT)`
over the column list `(note)`. -/
def c3Values : List (List InsertExpression) :=
  [[.Expression (.Cast (.Value (.Str "a")) (ScalarTypeName.newUnqualified "text"))],
   [.Default]]

/-- Witness for claim C3: there is one translated row per object, the
first row does not carry `DEFAULT` at the `note` position since its
object supplies it, and the second row carries `DEFAULT` exactly because
its object omits `note`. -/
theorem insert_objects_union_and_default_backfill_witness :
    c3Values.length = c3Objects.length ∧
    (([InsertExpression.Expression (.Cast (.Value (.Str "a"))
        (ScalarTypeName.newUnqualified "text"))].get? 0 =
        some InsertExpression.Default) ↔
      ({ name := "note" } : ColumnName) ∉
        objectInsertColumns c3Mutation (.obj [("note", .str "a")])) ∧
    (([InsertExpression.Default].get? 0 = some InsertExpression.Default) ↔
      ({ name := "note" } : ColumnName) ∉
        objectInsertColumns c3Mutation (.obj [])) :=
  ⟨(insert_objects_union_and_default_backfill
      { tables := [], compositeTypes := [], typeRepresentations := [] }
      State.new c3Mutation c3Objects [{ name := "note" }] c3Values State.new rfl).2.1,
   (insert_objects_union_and_default_backfill
      { tables := [], compositeTypes := [], typeRepresentations := [] }
      State.new c3Mutation c3Objects [{ name := "note" }] c3Values State.new
      rfl).2.2.2 0 (.obj [("note", .str "a")])
      [.Expression (.Cast (.Value (.Str "a"))
        (ScalarTypeName.newUnqualified "text"))] 0 { name := "note" } rfl rfl rfl,
   (insert_objects_union_and_default_backfill
      { tables := [], compositeTypes := [], typeRepresentations := [] }
      State.new c3Mutation c3Objects [{ name := "note" }] c3Values State.new
      rfl).2.2.2 1 (.obj []) [.Default] 0 { name := "note" } rfl rfl rfl⟩

end NdcPostgres
